import Mathlib

/-!
Shallow embedding of the demand-paged virtual-memory simulator in src/vmm.c,
together with proofs of the specified properties of its translation pipeline
(address decomposition, TLB, page table, frame allocator, backing store).

Machine integers of the C program are modelled as Nat / Int: all quantities of
interest (page numbers, offsets, frame numbers, counters) stay far below any
overflow boundary, and the C sentinel value -1 is kept as the Int value -1.
The mutable globals of the C program form the record VmmState; every C function
that mutates them becomes a state-passing Lean function.  The backing-store
file is a read-only byte sequence (a function from byte position to byte value
together with a size); fseek on a regular binary file positioned at
page_number*256 always succeeds, and fread returns min 256 (size - pos) bytes,
exactly the number of bytes a C fread can deliver from that position.
Reading physical_memory at a frame index outside [0,255] is undefined
behaviour in the C program; the model makes that observable by returning
none for the value of such a translation.
-/

namespace Vmm

/-- Capacity of the translation lookaside buffer (C macro TLB_SIZE). -/
def TLB_SIZE : Nat := 16

/-- One entry of the TLB (C struct tlb_entry): page number, frame number and
a validity flag, each a C int initialised to -1. -/
structure TlbEntry where
  page_number : Int
  frame_number : Int
  valid : Int
deriving DecidableEq, Repr

/-- The backing store: a read-only file of size bytes whose byte at
position i is bytes i (for i < size). -/
structure BackingStore where
  bytes : Nat → Int
  size : Nat

/-- The mutable global state of the C program: physical memory (256 frames of
256 signed bytes), the page table (256 ints, -1 = unmapped), the two
statistics counters, the free-frame list (256 ints, 1 = free, -1 = occupied)
with its count, the TLB ring-buffer cursor, the 16 TLB entries, and the
temporary frame buffer used while reading from the backing store. -/
structure VmmState where
  physical_memory : Nat → Nat → Int
  page_table : List Int
  page_faults : Nat
  tlb_hits : Nat
  free_frames : List Int
  number_of_free_frames : Nat
  next_free_tlb_index : Nat
  tlb : List TlbEntry
  temp_frame : Nat → Int

/-- C function get_page_number: (address & 65280) >> 8.  The C argument is an
unsigned int; since the mask 65280 only keeps bits 8..15, taking the argument
as an arbitrary Nat agrees with the C conversion to unsigned. -/
def get_page_number (address : Nat) : Nat :=
  (address &&& 65280) >>> 8

/-- C function get_offset: address & 255. -/
def get_offset (address : Nat) : Nat :=
  address &&& 255

/-- C function init_page_table: all 256 entries set to -1. -/
def init_page_table : List Int := List.replicate 256 (-1)

/-- C function init_physical_memory: marks all 256 frames free (value 1). -/
def init_free_frames : List Int := List.replicate 256 1

/-- C function init_tlb: all member variables of each entry set to -1. -/
def init_tlb_list : List TlbEntry := List.replicate TLB_SIZE ⟨-1, -1, -1⟩

/-- The state after main's initialisation calls (C globals are zero-initialised,
so physical_memory and temp_frame start as all zeroes, and the counters at 0;
init_physical_memory sets number_of_free_frames to 256 and init_tlb sets the
cursor next_free_tlb_index to 0). -/
def initState : VmmState :=
  { physical_memory := fun _ _ => 0
    page_table := init_page_table
    page_faults := 0
    tlb_hits := 0
    free_frames := init_free_frames
    number_of_free_frames := 256
    next_free_tlb_index := 0
    tlb := init_tlb_list
    temp_frame := fun _ => 0 }

/-- Index of the first list element satisfying p, scanning ascending from 0;
this is the search pattern of both C loops (the while loop of
get_next_free_frame and the for loop of check_tlb). -/
def find_first (p : α → Bool) : List α → Option Nat
  | [] => none
  | x :: xs => if p x then some 0 else (find_first p xs).map (· + 1)

/-- C function get_next_free_frame: if the free count is positive, scan for the
first frame not marked -1, mark it occupied and decrement the count; otherwise
return -1.  The C while loop has no bound check; when the count is positive but
no free entry exists (impossible while the count matches the list, see the
invariants below) the C program would scan past the array, and the model
returns the same -1 sentinel as the empty case. -/
def get_next_free_frame (s : VmmState) : Int × VmmState :=
  if 0 < s.number_of_free_frames then
    match find_first (fun f => f != -1) s.free_frames with
    | some i =>
        ((i : Int),
          { s with
              free_frames := s.free_frames.set i (-1)
              number_of_free_frames := s.number_of_free_frames - 1 })
    | none => (-1, s)
  else (-1, s)

/-- C function check_tlb: scan the 16 slots in ascending order; on the first
slot whose page_number matches and whose valid flag is 1, return its
frame_number and increment tlb_hits (then break); otherwise return -1. -/
def check_tlb (s : VmmState) (page_number : Int) : Int × VmmState :=
  match find_first (fun e => e.page_number == page_number && e.valid == 1) s.tlb with
  | some i =>
      ((s.tlb.getD i ⟨-1, -1, -1⟩).frame_number,
        { s with tlb_hits := s.tlb_hits + 1 })
  | none => (-1, s)

/-- C function update_tlb: write the mapping into the slot at the current
cursor, mark it valid, and advance the cursor mod TLB_SIZE, unconditionally
overwriting whatever the slot held. -/
def update_tlb (s : VmmState) (page_number frame_number : Int) : VmmState :=
  { s with
      tlb := s.tlb.set s.next_free_tlb_index ⟨page_number, frame_number, 1⟩
      next_free_tlb_index := (s.next_free_tlb_index + 1) % TLB_SIZE }

/-- Number of bytes the C fread call delivers when the file position is pos:
min 256 (size - pos) (zero when the position is at or past end of file). -/
def fread_count (store : BackingStore) (pos : Nat) : Nat :=
  min 256 (store.size - pos)

/-- Effect of the C fread call on the temp_frame buffer: the first
fread_count bytes are taken from the file starting at pos, the rest of the
buffer keeps its previous contents. -/
def fread_bytes (store : BackingStore) (pos : Nat) (old : Nat → Int) : Nat → Int :=
  fun i => if i < fread_count store pos then store.bytes (pos + i) else old i

/-- Effect of the C memcpy into physical_memory[frame]: that frame's row
becomes the source buffer, all other rows are unchanged. -/
def memcpy_frame (mem : Nat → Nat → Int) (frame : Nat) (src : Nat → Int) :
    Nat → Nat → Int :=
  fun f o => if f = frame then src o else mem f o

/-- C function check_page_table.  If the page is mapped, return its frame and
change nothing.  Otherwise increment page_faults; the fseek to
page_number*256 succeeds on the regular backing-store file; if fread delivers
zero bytes, return -1 (the C code prints an error and returns without touching
anything else).  Otherwise take the next free frame, bind
page_table[page_number] to it, copy the buffer into physical memory when the
frame is nonnegative, insert the mapping into the TLB, and return the frame. -/
def check_page_table (store : BackingStore) (s : VmmState) (page_number : Nat) :
    Int × VmmState :=
  let frame_number := s.page_table.getD page_number (-1)
  if frame_number = -1 then
    let s1 := { s with page_faults := s.page_faults + 1 }
    if fread_count store (page_number * 256) = 0 then
      (-1, s1)
    else
      let s2 := { s1 with
        temp_frame := fread_bytes store (page_number * 256) s1.temp_frame }
      let fr := get_next_free_frame s2
      let s3 := fr.2
      let s4 := { s3 with page_table := s3.page_table.set page_number fr.1 }
      let s5 :=
        if 0 ≤ fr.1 then
          { s4 with physical_memory :=
              memcpy_frame s4.physical_memory fr.1.toNat s4.temp_frame }
        else s4
      (fr.1, update_tlb s5 ((page_number : Int)) fr.1)
  else (frame_number, s)

/-- One output line of the main loop, plus observations used by the proofs:
frame is the frame number used for the physical address; value is the byte the
C program reads from physical_memory (none when the frame index is outside
[0,255], which is an out-of-bounds access in the C program); load records the
page number when this request loads a page from the backing store (a TLB miss
on an unmapped page whose read delivers bytes). -/
structure OutputRecord where
  logical_address : Nat
  physical_address : Int
  value : Option Int
  frame : Int
  load : Option Nat
deriving DecidableEq, Repr

/-- One iteration of the C main loop on one logical address: decompose, check
the TLB, on a -1 result consult the page table, then form the physical address
frame*256 + offset and read the value at physical_memory[frame][offset]. -/
def translate_step (store : BackingStore) (s : VmmState) (logical_address : Nat) :
    OutputRecord × VmmState :=
  let page_number := get_page_number logical_address
  let offset := get_offset logical_address
  let ct := check_tlb s ((page_number : Int))
  let res :=
    if ct.1 = -1 then check_page_table store ct.2 page_number else ct
  let load :=
    if ct.1 = -1 ∧ s.page_table.getD page_number (-1) = -1 ∧
        fread_count store (page_number * 256) ≠ 0 then
      some page_number
    else none
  (⟨logical_address,
    res.1 * 256 + (offset : Int),
    if 0 ≤ res.1 ∧ res.1 < 256 then
      some (res.2.physical_memory res.1.toNat offset)
    else none,
    res.1,
    load⟩,
   res.2)

/-- Folding step of a whole run that accumulates the output records. -/
def run_step (store : BackingStore) (acc : List OutputRecord × VmmState)
    (a : Nat) : List OutputRecord × VmmState :=
  let r := translate_step store acc.2 a
  (acc.1 ++ [r.1], r.2)

/-- A whole run of the main loop on a list of logical addresses, from the
initialised state: the list of output records and the final state. -/
def run_vmm (store : BackingStore) (addrs : List Nat) :
    List OutputRecord × VmmState :=
  addrs.foldl (run_step store) ([], initState)

/-- The state reached after processing a list of logical addresses. -/
def run_state (store : BackingStore) (addrs : List Nat) : VmmState :=
  addrs.foldl (fun s a => (translate_step store s a).2) initState

/-- The pages loaded from the backing store during a run, in order. -/
def run_loads (store : BackingStore) (addrs : List Nat) : List Nat :=
  (run_vmm store addrs).1.filterMap (fun r => r.load)

/-- Folding a sequence of (page, frame) insertions into the TLB with
update_tlb, starting from the initialised state; used to state the FIFO
eviction law. -/
def tlb_fill (ps : List (Int × Int)) : VmmState :=
  List.foldl (fun t pf => update_tlb t pf.1 pf.2) initState ps

/-- Structural invariants of the program state, established by initialisation
and preserved by every iteration of the main loop. -/
structure InvCore (s : VmmState) : Prop where
  pt_len : s.page_table.length = 256
  ff_len : s.free_frames.length = 256
  tlb_len : s.tlb.length = TLB_SIZE
  cursor_lt : s.next_free_tlb_index < TLB_SIZE
  ff_vals : ∀ v ∈ s.free_frames, v = 1 ∨ v = -1
  ff_count : s.number_of_free_frames = s.free_frames.countP (fun v => v != -1)
  frame_sum :
    s.number_of_free_frames + s.page_table.countP (fun v => v != -1) = 256
  pt_range : ∀ v ∈ s.page_table, v = -1 ∨ (0 ≤ v ∧ v < 256)
  frame_iff : ∀ i < 256,
    (s.free_frames.getD i 0 = -1 ↔
      ∃ q, q < 256 ∧ s.page_table.getD q (-1) = (i : Int))
  pt_inj : ∀ q1 q2, q1 < 256 → q2 < 256 →
    s.page_table.getD q1 (-1) ≠ -1 →
    s.page_table.getD q1 (-1) = s.page_table.getD q2 (-1) → q1 = q2
  tlb_range : ∀ e ∈ s.tlb, e.valid = 1 →
    0 ≤ e.page_number ∧ e.page_number < 256 ∧
    0 ≤ e.frame_number ∧ e.frame_number < 256

/-- Relation between the state and the multiset of pages referenced so far,
for runs over a backing store large enough that every read succeeds: a page is
mapped exactly when it has been referenced, every valid TLB entry is for a
referenced page, and the fault counter equals the number of distinct
referenced pages. -/
structure SeenInv (seen : List Nat) (s : VmmState) : Prop where
  pt_seen : ∀ q < 256, (s.page_table.getD q (-1) ≠ -1 ↔ q ∈ seen)
  tlb_seen : ∀ e ∈ s.tlb, e.valid = 1 →
    ∃ q ∈ seen, e.page_number = (q : Int)
  faults_eq : s.page_faults = seen.toFinset.card

/-! ### List helper lemmas -/

theorem getD_set_self {α : Type} (l : List α) (i : Nat) (v d : α)
    (h : i < l.length) : (l.set i v).getD i d = v := by
  simp [List.getD_eq_getElem?_getD, List.getElem?_set_self h]

theorem getD_set_ne {α : Type} (l : List α) (i j : Nat) (v d : α)
    (h : i ≠ j) : (l.set i v).getD j d = l.getD j d := by
  simp [List.getD_eq_getElem?_getD, List.getElem?_set_ne h]

theorem getD_mem {α : Type} (l : List α) (i : Nat) (d : α) (h : i < l.length) :
    l.getD i d ∈ l := by
  rw [List.getD_eq_getElem?_getD, List.getElem?_eq_getElem h]
  exact List.getElem_mem h

theorem countP_set {α : Type} (p : α → Bool) :
    ∀ (l : List α) (i : Nat), i < l.length → ∀ (v d : α),
      (l.set i v).countP p + (if p (l.getD i d) then 1 else 0) =
        l.countP p + (if p v then 1 else 0)
  | [], i, h, v, d => by simp at h
  | x :: xs, 0, _, v, d => by
      rw [List.set_cons_zero, List.getD_cons_zero, List.countP_cons,
        List.countP_cons]
      omega
  | x :: xs, i + 1, h, v, d => by
      rw [List.set_cons_succ, List.getD_cons_succ, List.countP_cons,
        List.countP_cons]
      have := countP_set p xs i (by simpa using h) v d
      omega

theorem countP_set_add_one {α : Type} (p : α → Bool) (l : List α) (i : Nat)
    (v d : α) (h : i < l.length) (hold : p (l.getD i d) = false)
    (hnew : p v = true) : (l.set i v).countP p = l.countP p + 1 := by
  have hset := countP_set p l i h v d
  rw [hold, hnew] at hset
  rw [show (if (false : Bool) = true then (1 : Nat) else 0) = 0 from rfl,
    show (if (true : Bool) = true then (1 : Nat) else 0) = 1 from rfl] at hset
  omega

theorem countP_set_sub_one {α : Type} (p : α → Bool) (l : List α) (i : Nat)
    (v d : α) (h : i < l.length) (hold : p (l.getD i d) = true)
    (hnew : p v = false) : (l.set i v).countP p + 1 = l.countP p := by
  have hset := countP_set p l i h v d
  rw [hold, hnew] at hset
  rw [show (if (false : Bool) = true then (1 : Nat) else 0) = 0 from rfl,
    show (if (true : Bool) = true then (1 : Nat) else 0) = 1 from rfl] at hset
  omega

theorem countP_lt_of_getD {α : Type} (p : α → Bool) :
    ∀ (l : List α) (i : Nat) (d : α), i < l.length →
      p (l.getD i d) = false → l.countP p < l.length
  | [], i, d, h, _ => by simp at h
  | x :: xs, 0, d, _, hp => by
      rw [List.getD_cons_zero] at hp
      rw [List.countP_cons, List.length_cons]
      have h1 := List.countP_le_length (p := p) (l := xs)
      simp only [hp, Bool.false_eq_true, if_false]
      omega
  | x :: xs, i + 1, d, h, hp => by
      rw [List.getD_cons_succ] at hp
      have := countP_lt_of_getD p xs i d (by simpa using h) hp
      rw [List.countP_cons, List.length_cons]
      by_cases hx : p x
      · simp only [hx, if_true]; omega
      · simp only [hx, Bool.false_eq_true, if_false]; omega

theorem getD_replicate {α : Type} (n : Nat) (a d : α) (i : Nat) :
    (List.replicate n a).getD i d = if i < n then a else d := by
  rw [List.getD_eq_getElem?_getD, List.getElem?_replicate]
  by_cases h : i < n
  · rw [if_pos h, if_pos h]; rfl
  · rw [if_neg h, if_neg h]; rfl

/-! ### find_first lemmas -/

theorem find_first_eq_none_iff {α : Type} (p : α → Bool) (l : List α) :
    find_first p l = none ↔ ∀ x ∈ l, p x = false := by
  induction l with
  | nil => simp [find_first]
  | cons x xs ih =>
      by_cases h : p x
      · simp only [find_first, h, if_true]
        constructor
        · intro hc
          cases hc
        · intro hall
          have := hall x (by simp)
          rw [h] at this
          cases this
      · simp only [find_first, h, Bool.false_eq_true, if_false,
          Option.map_eq_none']
        constructor
        · intro hn y hy
          rcases List.mem_cons.mp hy with rfl | hy2
          · simpa using h
          · exact (ih.mp hn) y hy2
        · intro hall
          exact ih.mpr fun y hy => hall y (List.mem_cons.mpr (Or.inr hy))

theorem find_first_some {α : Type} (p : α → Bool) :
    ∀ (l : List α) (i : Nat), find_first p l = some i →
      ∃ h : i < l.length, p (l.get ⟨i, h⟩) = true ∧
        ∀ j (hj : j < l.length), j < i → p (l.get ⟨j, hj⟩) = false
  | [], i, h => by simp [find_first] at h
  | x :: xs, i, h => by
      by_cases hx : p x
      · simp only [find_first, hx, if_true] at h
        obtain rfl : (0 : Nat) = i := Option.some.inj h
        refine ⟨by simp, by simpa using hx, ?_⟩
        intro j hj hj0
        omega
      · simp only [find_first, hx, Bool.false_eq_true, if_false] at h
        cases hfx : find_first p xs with
        | none => rw [hfx] at h; simp at h
        | some i0 =>
            rw [hfx, Option.map_some'] at h
            obtain rfl : i0 + 1 = i := Option.some.inj h
            obtain ⟨hlt, hp, hmin⟩ := find_first_some p xs i0 hfx
            refine ⟨by simpa using Nat.succ_lt_succ hlt, by simpa using hp, ?_⟩
            intro j hj hjlt
            match j with
            | 0 => simpa using hx
            | j + 1 =>
                have := hmin j (by simpa using hj) (by omega)
                simpa using this

theorem find_first_isSome {α : Type} (p : α → Bool) (l : List α) (x : α)
    (hx : x ∈ l) (hp : p x = true) : ∃ i, find_first p l = some i := by
  cases h : find_first p l with
  | some i => exact ⟨i, rfl⟩
  | none =>
      rw [find_first_eq_none_iff] at h
      rw [h x hx] at hp
      cases hp

theorem getD_eq_get {α : Type} (l : List α) (i : Nat) (d : α)
    (h : i < l.length) : l.getD i d = l.get ⟨i, h⟩ := by
  rw [List.getD_eq_getElem?_getD, List.getElem?_eq_getElem h]
  rfl

/-! ### Address decomposition arithmetic -/

theorem get_offset_eq_mod (a : Nat) : get_offset a = a % 256 := by
  rw [get_offset, show (255 : Nat) = 2 ^ 8 - 1 by norm_num,
    Nat.and_pow_two_sub_one_eq_mod]

theorem and_shiftRight_distrib (a b n : Nat) :
    (a &&& b) >>> n = (a >>> n) &&& (b >>> n) := by
  apply Nat.eq_of_testBit_eq
  intro i
  simp [Nat.testBit_shiftRight, Nat.testBit_and]

theorem get_page_number_eq_mod (a : Nat) :
    get_page_number a = (a / 256) % 256 := by
  calc get_page_number a = (a >>> 8) &&& (65280 >>> 8) :=
        and_shiftRight_distrib a 65280 8
    _ = (a >>> 8) &&& 255 := by
        rw [show (65280 : Nat) >>> 8 = 255 by
          rw [Nat.shiftRight_eq_div_pow]]
    _ = (a >>> 8) % 256 := by
        rw [show (255 : Nat) = 2 ^ 8 - 1 by norm_num,
          Nat.and_pow_two_sub_one_eq_mod]
    _ = (a / 256) % 256 := by
        rw [Nat.shiftRight_eq_div_pow]

theorem get_page_number_lt (a : Nat) : get_page_number a < 256 := by
  rw [get_page_number_eq_mod]
  exact Nat.mod_lt _ (by norm_num)

theorem get_offset_lt (a : Nat) : get_offset a < 256 := by
  rw [get_offset_eq_mod]
  exact Nat.mod_lt _ (by norm_num)

theorem get_page_number_mod_65536 (a : Nat) :
    get_page_number (a % 65536) = get_page_number a := by
  rw [get_page_number_eq_mod, get_page_number_eq_mod,
    show (65536 : Nat) = 256 * 256 by norm_num,
    Nat.mod_mul_right_div_self]
  omega

theorem get_offset_mod_65536 (a : Nat) :
    get_offset (a % 65536) = get_offset a := by
  rw [get_offset_eq_mod, get_offset_eq_mod]
  exact Nat.mod_mod_of_dvd a (by norm_num)


/-! ### Characterisations of the state-passing functions -/

theorem check_tlb_shape (s : VmmState) (p : Int) :
    ∃ n, (check_tlb s p).2 = { s with tlb_hits := n } := by
  rw [check_tlb]
  cases h : find_first (fun e => e.page_number == p && e.valid == 1) s.tlb with
  | some i => exact ⟨s.tlb_hits + 1, rfl⟩
  | none => exact ⟨s.tlb_hits, rfl⟩

theorem check_tlb_miss (s : VmmState) (p : Int)
    (h : ∀ e ∈ s.tlb, ¬(e.valid = 1 ∧ e.page_number = p)) :
    check_tlb s p = (-1, s) := by
  have hn : find_first (fun e => e.page_number == p && e.valid == 1) s.tlb
      = none := by
    rw [find_first_eq_none_iff]
    intro e he
    have he2 := h e he
    by_cases h1 : e.page_number = p
    · by_cases h2 : e.valid = 1
      · exact absurd ⟨h2, h1⟩ he2
      · simp [h1, h2]
    · simp [h1]
  rw [check_tlb, hn]

theorem gnf_exhausted (s : VmmState) (hc : s.number_of_free_frames = 0) :
    get_next_free_frame s = (-1, s) := by
  rw [get_next_free_frame, if_neg (by omega)]

theorem gnf_success (s : VmmState) (i : Nat)
    (hc : 0 < s.number_of_free_frames)
    (hf : find_first (fun f => f != -1) s.free_frames = some i) :
    get_next_free_frame s =
      ((i : Int),
        { s with
            free_frames := s.free_frames.set i (-1)
            number_of_free_frames := s.number_of_free_frames - 1 }) := by
  rw [get_next_free_frame, if_pos hc, hf]

theorem cpt_hit (store : BackingStore) (s : VmmState) (page : Nat)
    (h : s.page_table.getD page (-1) ≠ -1) :
    check_page_table store s page = (s.page_table.getD page (-1), s) := by
  simp only [check_page_table]
  rw [if_neg h]

theorem cpt_zero (store : BackingStore) (s : VmmState) (page : Nat)
    (h1 : s.page_table.getD page (-1) = -1)
    (h2 : fread_count store (page * 256) = 0) :
    check_page_table store s page =
      (-1, { s with page_faults := s.page_faults + 1 }) := by
  simp only [check_page_table]
  rw [if_pos h1, if_pos h2]

theorem cpt_fault_success (store : BackingStore) (s : VmmState) (page i : Nat)
    (h1 : s.page_table.getD page (-1) = -1)
    (h2 : fread_count store (page * 256) ≠ 0)
    (hc : 0 < s.number_of_free_frames)
    (hf : find_first (fun f => f != -1) s.free_frames = some i) :
    check_page_table store s page =
      ((i : Int),
        { physical_memory := memcpy_frame s.physical_memory i
            (fread_bytes store (page * 256) s.temp_frame)
          page_table := s.page_table.set page ((i : Int))
          page_faults := s.page_faults + 1
          tlb_hits := s.tlb_hits
          free_frames := s.free_frames.set i (-1)
          number_of_free_frames := s.number_of_free_frames - 1
          next_free_tlb_index := (s.next_free_tlb_index + 1) % TLB_SIZE
          tlb := s.tlb.set s.next_free_tlb_index
            ⟨(page : Int), (i : Int), 1⟩
          temp_frame := fread_bytes store (page * 256) s.temp_frame }) := by
  simp only [check_page_table]
  rw [if_pos h1, if_neg h2]
  have hg := gnf_success
    { s with
        page_faults := s.page_faults + 1
        temp_frame := fread_bytes store (page * 256) s.temp_frame }
    i (by simpa using hc) (by simpa using hf)
  rw [hg]
  rw [if_pos (by exact by omega)]
  simp [update_tlb, Int.toNat_ofNat]


/-! ### The structural invariant: initialisation and preservation -/

theorem invcore_update_aux (s : VmmState) (pm : Nat → Nat → Int)
    (pf th : Nat) (tf : Nat → Int) (h : InvCore s) :
    InvCore { s with
      physical_memory := pm, page_faults := pf, tlb_hits := th,
      temp_frame := tf } :=
  ⟨h.pt_len, h.ff_len, h.tlb_len, h.cursor_lt, h.ff_vals, h.ff_count,
    h.frame_sum, h.pt_range, h.frame_iff, h.pt_inj, h.tlb_range⟩

theorem cpt_unbound_success (store : BackingStore) (s : VmmState) (page : Nat)
    (hinv : InvCore s) (hpage : page < 256)
    (h1 : s.page_table.getD page (-1) = -1)
    (h2 : fread_count store (page * 256) ≠ 0) :
    ∃ i, i < 256 ∧ s.free_frames.getD i 0 = 1 ∧
      find_first (fun f => f != -1) s.free_frames = some i ∧
      0 < s.number_of_free_frames ∧
      check_page_table store s page =
        ((i : Int),
          { physical_memory := memcpy_frame s.physical_memory i
              (fread_bytes store (page * 256) s.temp_frame)
            page_table := s.page_table.set page ((i : Int))
            page_faults := s.page_faults + 1
            tlb_hits := s.tlb_hits
            free_frames := s.free_frames.set i (-1)
            number_of_free_frames := s.number_of_free_frames - 1
            next_free_tlb_index := (s.next_free_tlb_index + 1) % TLB_SIZE
            tlb := s.tlb.set s.next_free_tlb_index
              ⟨(page : Int), (i : Int), 1⟩
            temp_frame := fread_bytes store (page * 256) s.temp_frame }) := by
  have hplen : page < s.page_table.length := by rw [hinv.pt_len]; exact hpage
  have hblt : s.page_table.countP (fun v => v != -1) < 256 := by
    have hcount := countP_lt_of_getD (fun v => v != -1) s.page_table page (-1)
      hplen (by simp only [h1]; decide)
    rw [hinv.pt_len] at hcount
    exact hcount
  have hc : 0 < s.number_of_free_frames := by
    have h3 := hinv.frame_sum
    omega
  have hpos : 0 < s.free_frames.countP (fun v => v != -1) := by
    rw [← hinv.ff_count]
    exact hc
  obtain ⟨x, hxmem, hxp⟩ := List.countP_pos_iff.mp hpos
  obtain ⟨i, hfi⟩ := find_first_isSome (fun f => f != -1) s.free_frames x hxmem hxp
  obtain ⟨hilen, hip, -⟩ := find_first_some _ _ _ hfi
  have hi256 : i < 256 := by rw [hinv.ff_len] at hilen; exact hilen
  have hfree1 : s.free_frames.getD i 0 = 1 := by
    rcases hinv.ff_vals _ (getD_mem s.free_frames i 0 hilen) with hv | hv
    · exact hv
    · exfalso
      rw [getD_eq_get s.free_frames i 0 hilen] at hv
      rw [hv] at hip
      simp at hip
  exact ⟨i, hi256, hfree1, hfi, hc,
    cpt_fault_success store s page i h1 h2 hc hfi⟩

theorem invcore_check_page_table (store : BackingStore) (s : VmmState)
    (page : Nat) (hpage : page < 256) (h : InvCore s) :
    InvCore (check_page_table store s page).2 := by
  by_cases hb : s.page_table.getD page (-1) = -1
  · by_cases hr : fread_count store (page * 256) = 0
    · rw [cpt_zero store s page hb hr]
      exact invcore_update_aux s s.physical_memory (s.page_faults + 1)
        s.tlb_hits s.temp_frame h
    · obtain ⟨i, hi256, hfree1, hfi, hc, heq⟩ :=
        cpt_unbound_success store s page h hpage hb hr
      rw [heq]
      have hplen : page < s.page_table.length := by rw [h.pt_len]; exact hpage
      have hflen : i < s.free_frames.length := by rw [h.ff_len]; exact hi256
      refine ⟨?_, ?_, ?_, ?_, ?_, ?_, ?_, ?_, ?_, ?_, ?_⟩ <;> dsimp only
      · simpa using h.pt_len
      · simpa using h.ff_len
      · simpa using h.tlb_len
      · exact Nat.mod_lt _ (by decide)
      · intro v hv
        rcases List.mem_or_eq_of_mem_set hv with hv1 | rfl
        · exact h.ff_vals v hv1
        · right; rfl
      · have hset := countP_set_sub_one (fun v => v != -1) s.free_frames i
          (-1) 0 hflen (by rw [hfree1]; decide) (by decide)
        have hffc := h.ff_count
        omega
      · have hset := countP_set_add_one (fun v => v != -1) s.page_table page
          ((i : Int)) (-1) hplen (by rw [hb]; decide)
          (by simp only [bne_iff_ne]; omega)
        have hfs := h.frame_sum
        omega
      · intro v hv
        rcases List.mem_or_eq_of_mem_set hv with hv1 | rfl
        · exact h.pt_range v hv1
        · right
          constructor
          · exact by omega
          · omega
      · intro j hj
        by_cases hji : j = i
        · subst hji
          rw [getD_set_self s.free_frames j (-1) 0 hflen]
          constructor
          · intro _
            exact ⟨page, hpage,
              by rw [getD_set_self s.page_table page (j : Int) (-1) hplen]⟩
          · intro _
            rfl
        · rw [getD_set_ne s.free_frames i j (-1) 0 (fun hc => hji hc.symm)]
          constructor
          · intro hlhs
            obtain ⟨q, hq, hqe⟩ := (h.frame_iff j hj).mp hlhs
            have hqp : q ≠ page := by
              intro hc
              rw [hc, hb] at hqe
              omega
            exact ⟨q, hq,
              by rw [getD_set_ne s.page_table page q ((i : Int)) (-1)
                (fun hc => hqp hc.symm)]; exact hqe⟩
          · rintro ⟨q, hq, hqe⟩
            by_cases hqp : q = page
            · subst hqp
              rw [getD_set_self s.page_table q ((i : Int)) (-1) hplen] at hqe
              have : i = j := by omega
              exact absurd this.symm hji
            · rw [getD_set_ne s.page_table page q ((i : Int)) (-1)
                (fun hc => hqp hc.symm)] at hqe
              exact (h.frame_iff j hj).mpr ⟨q, hq, hqe⟩
      · intro q1 q2 hq1 hq2 hne hqq
        by_cases e1 : q1 = page
        · by_cases e2 : q2 = page
          · rw [e1, e2]
          · subst e1
            rw [getD_set_self s.page_table q1 ((i : Int)) (-1) hplen] at hqq
            rw [getD_set_ne s.page_table q1 q2 ((i : Int)) (-1)
              (fun hc => e2 hc.symm)] at hqq
            have hocc : s.free_frames.getD i 0 = -1 :=
              (h.frame_iff i hi256).mpr ⟨q2, hq2, hqq.symm⟩
            rw [hfree1] at hocc
            omega
        · by_cases e2 : q2 = page
          · subst e2
            rw [getD_set_ne s.page_table q2 q1 ((i : Int)) (-1)
              (fun hc => e1 hc.symm)] at hqq
            rw [getD_set_self s.page_table q2 ((i : Int)) (-1) hplen] at hqq
            rw [getD_set_ne s.page_table q2 q1 ((i : Int)) (-1)
              (fun hc => e1 hc.symm)] at hne
            have hocc : s.free_frames.getD i 0 = -1 :=
              (h.frame_iff i hi256).mpr ⟨q1, hq1, hqq⟩
            rw [hfree1] at hocc
            omega
          · rw [getD_set_ne s.page_table page q1 ((i : Int)) (-1)
              (fun hc => e1 hc.symm)] at hqq hne
            rw [getD_set_ne s.page_table page q2 ((i : Int)) (-1)
              (fun hc => e2 hc.symm)] at hqq
            exact h.pt_inj q1 q2 hq1 hq2 hne hqq
      · intro e he hv
        rcases List.mem_or_eq_of_mem_set he with he1 | rfl
        · exact h.tlb_range e he1 hv
        · dsimp only
          exact ⟨by omega, by omega, by omega, by omega⟩
  · rw [cpt_hit store s page hb]
    exact h

theorem translate_step_snd (store : BackingStore) (s : VmmState) (a : Nat) :
    (translate_step store s a).2 =
      (if (check_tlb s (((get_page_number a : Nat) : Int))).1 = -1
       then check_page_table store
         (check_tlb s (((get_page_number a : Nat) : Int))).2 (get_page_number a)
       else check_tlb s (((get_page_number a : Nat) : Int))).2 := rfl

theorem invcore_translate_step (store : BackingStore) (s : VmmState) (a : Nat)
    (h : InvCore s) : InvCore (translate_step store s a).2 := by
  rw [translate_step_snd]
  obtain ⟨n, hn⟩ := check_tlb_shape s (((get_page_number a : Nat) : Int))
  have hinv2 : InvCore (check_tlb s (((get_page_number a : Nat) : Int))).2 := by
    rw [hn]
    exact invcore_update_aux s s.physical_memory s.page_faults n
      s.temp_frame h
  by_cases hm : (check_tlb s (((get_page_number a : Nat) : Int))).1 = -1
  · rw [if_pos hm]
    exact invcore_check_page_table store _ _ (get_page_number_lt a) hinv2
  · rw [if_neg hm]
    exact hinv2

theorem countP_replicate {α : Type} (p : α → Bool) (n : Nat) (a : α) :
    (List.replicate n a).countP p = if p a then n else 0 := by
  induction n with
  | zero => simp
  | succ n ih =>
      rw [List.replicate_succ, List.countP_cons, ih]
      by_cases h : p a
      · simp [h]
      · simp [h]

theorem invcore_init : InvCore initState := by
  constructor
  · rw [show initState.page_table = List.replicate 256 (-1) from rfl,
      List.length_replicate]
  · rw [show initState.free_frames = List.replicate 256 1 from rfl,
      List.length_replicate]
  · rw [show initState.tlb = List.replicate 16 ⟨-1, -1, -1⟩ from rfl,
      List.length_replicate]
    rfl
  · decide
  · intro v hv
    rw [show initState.free_frames = List.replicate 256 1 from rfl] at hv
    rcases List.mem_replicate.mp hv with ⟨-, rfl⟩
    left; rfl
  · rw [show initState.free_frames = List.replicate 256 1 from rfl,
      countP_replicate]
    norm_num
    rfl
  · rw [show initState.page_table = List.replicate 256 (-1) from rfl,
      countP_replicate]
    norm_num
    rfl
  · intro v hv
    rw [show initState.page_table = List.replicate 256 (-1) from rfl] at hv
    rcases List.mem_replicate.mp hv with ⟨-, rfl⟩
    left; rfl
  · intro i hi
    rw [show initState.free_frames = List.replicate 256 1 from rfl,
      show initState.page_table = List.replicate 256 (-1) from rfl]
    constructor
    · intro hc
      rw [getD_replicate] at hc
      rw [if_pos hi] at hc
      omega
    · rintro ⟨q, hq, hqe⟩
      rw [getD_replicate, if_pos hq] at hqe
      omega
  · intro q1 q2 hq1 hq2 hne _
    exfalso
    apply hne
    rw [show initState.page_table = List.replicate 256 (-1) from rfl,
      getD_replicate, if_pos hq1]
  · intro e he hv
    rw [show initState.tlb = List.replicate 16 ⟨-1, -1, -1⟩ from rfl] at he
    rcases List.mem_replicate.mp he with ⟨-, rfl⟩
    simp at hv

theorem invcore_foldl (store : BackingStore) (l : List Nat) (s : VmmState)
    (h : InvCore s) :
    InvCore (l.foldl (fun s a => (translate_step store s a).2) s) := by
  induction l generalizing s with
  | nil => exact h
  | cons a l ih => exact ih _ (invcore_translate_step store s a h)

theorem invcore_run (store : BackingStore) (addrs : List Nat) :
    InvCore (run_state store addrs) :=
  invcore_foldl store addrs initState invcore_init


/-! ### Run decomposition lemmas -/

theorem run_state_append (store : BackingStore) (xs ys : List Nat) :
    run_state store (xs ++ ys) =
      ys.foldl (fun s a => (translate_step store s a).2) (run_state store xs) := by
  rw [run_state, run_state, List.foldl_append]

theorem run_state_snoc (store : BackingStore) (xs : List Nat) (a : Nat) :
    run_state store (xs ++ [a]) =
      (translate_step store (run_state store xs) a).2 := by
  rw [run_state_append]
  rfl

theorem run_vmm_snd_foldl (store : BackingStore) (l : List Nat) :
    ∀ (acc : List OutputRecord) (s : VmmState),
      (l.foldl (run_step store) (acc, s)).2 =
        l.foldl (fun s a => (translate_step store s a).2) s := by
  induction l with
  | nil => intro acc s; rfl
  | cons a l ih =>
      intro acc s
      rw [List.foldl_cons, List.foldl_cons]
      exact ih _ _

theorem run_vmm_snd (store : BackingStore) (addrs : List Nat) :
    (run_vmm store addrs).2 = run_state store addrs :=
  run_vmm_snd_foldl store addrs [] initState

theorem run_vmm_snoc (store : BackingStore) (xs : List Nat) (a : Nat) :
    run_vmm store (xs ++ [a]) =
      ((run_vmm store xs).1 ++
        [(translate_step store (run_state store xs) a).1],
       (translate_step store (run_state store xs) a).2) := by
  calc run_vmm store (xs ++ [a])
      = ((run_vmm store xs).1 ++
          [(translate_step store (run_vmm store xs).2 a).1],
         (translate_step store (run_vmm store xs).2 a).2) := by
        rw [run_vmm, List.foldl_append]
        rfl
    _ = ((run_vmm store xs).1 ++
          [(translate_step store (run_state store xs) a).1],
         (translate_step store (run_state store xs) a).2) := by
        rw [run_vmm_snd]

theorem run_loads_snoc (store : BackingStore) (xs : List Nat) (a : Nat) :
    run_loads store (xs ++ [a]) =
      run_loads store xs ++
        ((translate_step store (run_state store xs) a).1.load).toList := by
  rw [run_loads, run_vmm_snoc]
  dsimp only
  rw [List.filterMap_append]
  congr 1

/-! ### The seen-pages invariant -/

theorem mem_append_singleton_iff {q p : Nat} {seen : List Nat} :
    q ∈ seen ++ [p] ↔ q ∈ seen ∨ q = p := by
  simp

theorem toFinset_card_append_mem (seen : List Nat) (p : Nat) (h : p ∈ seen) :
    (seen ++ [p]).toFinset.card = seen.toFinset.card := by
  rw [List.toFinset_append,
    show (([p] : List Nat)).toFinset = {p} from rfl,
    Finset.union_comm, ← Finset.insert_eq,
    Finset.insert_eq_self.mpr (List.mem_toFinset.mpr h)]

theorem toFinset_card_append_not_mem (seen : List Nat) (p : Nat)
    (h : p ∉ seen) :
    (seen ++ [p]).toFinset.card = seen.toFinset.card + 1 := by
  rw [List.toFinset_append,
    show (([p] : List Nat)).toFinset = {p} from rfl,
    Finset.union_comm, ← Finset.insert_eq,
    Finset.card_insert_of_not_mem (fun hc => h (List.mem_toFinset.mp hc))]

theorem seeninv_update_hits (s : VmmState) (seen : List Nat) (n : Nat)
    (h : SeenInv seen s) : SeenInv seen { s with tlb_hits := n } :=
  ⟨h.pt_seen, h.tlb_seen, h.faults_eq⟩

theorem seeninv_append_mem (s : VmmState) (seen : List Nat) (p : Nat)
    (hin : p ∈ seen) (h : SeenInv seen s) : SeenInv (seen ++ [p]) s := by
  constructor
  · intro q hq
    rw [h.pt_seen q hq]
    rw [mem_append_singleton_iff]
    constructor
    · intro h1; exact Or.inl h1
    · rintro (h1 | rfl)
      · exact h1
      · exact hin
  · intro e he hv
    obtain ⟨q, hq, hqe⟩ := h.tlb_seen e he hv
    exact ⟨q, List.mem_append.mpr (Or.inl hq), hqe⟩
  · rw [h.faults_eq, toFinset_card_append_mem seen p hin]

theorem fread_count_full (store : BackingStore) (page : Nat)
    (hs : 65536 ≤ store.size) (hp : page < 256) :
    fread_count store (page * 256) = 256 := by
  rw [fread_count, Nat.min_def]
  split <;> omega

theorem check_tlb_neg_one (s : VmmState) (p : Int) (hinv : InvCore s)
    (h : (check_tlb s p).1 = -1) : check_tlb s p = (-1, s) := by
  rw [check_tlb] at h ⊢
  cases hf : find_first (fun e => e.page_number == p && e.valid == 1) s.tlb with
  | none => rfl
  | some i =>
      exfalso
      rw [hf] at h
      dsimp only at h
      obtain ⟨hlt, hp, -⟩ := find_first_some _ _ _ hf
      simp only [Bool.and_eq_true, beq_iff_eq] at hp
      have hrange := hinv.tlb_range (s.tlb.get ⟨i, hlt⟩)
        (List.get_mem s.tlb i hlt) hp.2
      rw [getD_eq_get s.tlb i ⟨-1, -1, -1⟩ hlt] at h
      omega

theorem check_tlb_hit_mem (s : VmmState) (p : Int)
    (h : (check_tlb s p).1 ≠ -1) :
    ∃ e ∈ s.tlb, e.valid = 1 ∧ e.page_number = p := by
  rw [check_tlb] at h
  cases hf : find_first (fun e => e.page_number == p && e.valid == 1) s.tlb with
  | none => rw [hf] at h; simp at h
  | some i =>
      obtain ⟨hlt, hp, -⟩ := find_first_some _ _ _ hf
      simp only [Bool.and_eq_true, beq_iff_eq] at hp
      exact ⟨s.tlb.get ⟨i, hlt⟩, List.get_mem s.tlb i hlt, hp.2, hp.1⟩

theorem seeninv_translate_step (store : BackingStore) (s : VmmState) (a : Nat)
    (seen : List Nat) (hs : 65536 ≤ store.size) (hinv : InvCore s)
    (hseen : SeenInv seen s) :
    SeenInv (seen ++ [get_page_number a]) (translate_step store s a).2 := by
  have hplt := get_page_number_lt a
  rw [translate_step_snd]
  by_cases hm : (check_tlb s ((get_page_number a : Nat) : Int)).1 = -1
  · rw [if_pos hm]
    have hct := check_tlb_neg_one s _ hinv hm
    rw [hct]
    dsimp only
    by_cases hb : s.page_table.getD (get_page_number a) (-1) = -1
    · have hnotin : get_page_number a ∉ seen := by
        intro hin
        exact (hseen.pt_seen _ hplt).mpr hin hb
      have hr : fread_count store (get_page_number a * 256) ≠ 0 := by
        rw [fread_count_full store _ hs hplt]
        omega
      obtain ⟨i, hi256, hfree1, hfi, hc, heq⟩ :=
        cpt_unbound_success store s _ hinv hplt hb hr
      rw [heq]
      refine ⟨?_, ?_, ?_⟩ <;> dsimp only
      · intro q hq
        by_cases hqp : q = get_page_number a
        · subst hqp
          rw [getD_set_self s.page_table (get_page_number a) ((i : Int)) (-1)
            (by rw [hinv.pt_len]; exact hplt)]
          rw [mem_append_singleton_iff]
          constructor
          · intro _; exact Or.inr rfl
          · intro _; omega
        · rw [getD_set_ne s.page_table (get_page_number a) q ((i : Int)) (-1)
            (fun hc2 => hqp hc2.symm)]
          rw [hseen.pt_seen q hq, mem_append_singleton_iff]
          constructor
          · intro h1; exact Or.inl h1
          · rintro (h1 | rfl)
            · exact h1
            · exact absurd rfl hqp
      · intro e he hv
        rcases List.mem_or_eq_of_mem_set he with he1 | rfl
        · obtain ⟨q, hq, hqe⟩ := hseen.tlb_seen e he1 hv
          exact ⟨q, List.mem_append.mpr (Or.inl hq), hqe⟩
        · exact ⟨get_page_number a,
            List.mem_append.mpr (Or.inr (by simp)), rfl⟩
      · rw [hseen.faults_eq,
          toFinset_card_append_not_mem seen _ hnotin]
    · rw [cpt_hit store s _ hb]
      have hin : get_page_number a ∈ seen := (hseen.pt_seen _ hplt).mp hb
      exact seeninv_append_mem s seen _ hin hseen
  · rw [if_neg hm]
    obtain ⟨e, he, hv, hpe⟩ := check_tlb_hit_mem s _ hm
    obtain ⟨q, hq, hqe⟩ := hseen.tlb_seen e he hv
    have hin : get_page_number a ∈ seen := by
      have h1 : ((get_page_number a : Nat) : Int) = (q : Int) := by
        rw [← hpe, hqe]
      have h2 : get_page_number a = q := by exact_mod_cast h1
      rw [h2]
      exact hq
    obtain ⟨n, hn⟩ := check_tlb_shape s ((get_page_number a : Nat) : Int)
    rw [hn]
    exact seeninv_update_hits s _ n (seeninv_append_mem s seen _ hin hseen)

theorem seeninv_init : SeenInv [] initState := by
  constructor
  · intro q hq
    rw [show initState.page_table = List.replicate 256 (-1) from rfl,
      getD_replicate, if_pos hq]
    simp
  · intro e he hv
    rw [show initState.tlb = List.replicate 16 ⟨-1, -1, -1⟩ from rfl] at he
    rcases List.mem_replicate.mp he with ⟨-, rfl⟩
    simp at hv
  · rfl

theorem seeninv_foldl (store : BackingStore) (hs : 65536 ≤ store.size)
    (l : List Nat) :
    ∀ (s : VmmState) (seen : List Nat), InvCore s → SeenInv seen s →
      SeenInv (seen ++ l.map get_page_number)
        (l.foldl (fun s a => (translate_step store s a).2) s) := by
  induction l with
  | nil => intro s seen _ hseen; simpa using hseen
  | cons a l ih =>
      intro s seen hinv hseen
      have h1 := seeninv_translate_step store s a seen hs hinv hseen
      have h2 := ih _ _ (invcore_translate_step store s a hinv) h1
      rw [List.foldl_cons]
      rw [List.map_cons]
      have h3 : seen ++ get_page_number a :: l.map get_page_number =
          (seen ++ [get_page_number a]) ++ l.map get_page_number := by
        simp
      rw [h3]
      exact h2

theorem seeninv_run (store : BackingStore) (hs : 65536 ≤ store.size)
    (addrs : List Nat) :
    SeenInv (addrs.map get_page_number) (run_state store addrs) := by
  have h := seeninv_foldl store hs addrs initState [] invcore_init seeninv_init
  simpa using h


/-! ### Further characterisation helpers -/

theorem gnf_tlb_cursor (t : VmmState) :
    (get_next_free_frame t).2.tlb = t.tlb ∧
    (get_next_free_frame t).2.next_free_tlb_index = t.next_free_tlb_index := by
  rw [get_next_free_frame]
  split
  · split <;> exact ⟨rfl, rfl⟩
  · exact ⟨rfl, rfl⟩

theorem gnf_page_table (t : VmmState) :
    (get_next_free_frame t).2.page_table = t.page_table := by
  rw [get_next_free_frame]
  split
  · split <;> rfl
  · rfl

theorem cpt_fault_page_table (store : BackingStore) (t : VmmState) (page : Nat)
    (hb : t.page_table.getD page (-1) = -1)
    (hr : fread_count store (page * 256) ≠ 0) :
    (check_page_table store t page).2.page_table =
      t.page_table.set page (check_page_table store t page).1 := by
  simp only [check_page_table]
  rw [if_pos hb, if_neg hr]
  dsimp only
  split <;> (rw [gnf_page_table]; rfl)

theorem cpt_bound_persist (store : BackingStore) (t : VmmState) (page q : Nat)
    (h : t.page_table.getD q (-1) ≠ -1) :
    (check_page_table store t page).2.page_table.getD q (-1) ≠ -1 := by
  by_cases hb : t.page_table.getD page (-1) = -1
  · by_cases hr : fread_count store (page * 256) = 0
    · rw [cpt_zero store t page hb hr]
      exact h
    · have hq : q ≠ page := fun hc => h (by rw [hc]; exact hb)
      rw [cpt_fault_page_table store t page hb hr]
      rw [getD_set_ne t.page_table page q _ (-1) (fun hc => hq hc.symm)]
      exact h
  · rw [cpt_hit store t page hb]
    exact h

theorem step_bound_persist (store : BackingStore) (s : VmmState) (a : Nat)
    (q : Nat) (h : s.page_table.getD q (-1) ≠ -1) :
    (translate_step store s a).2.page_table.getD q (-1) ≠ -1 := by
  rw [translate_step_snd]
  obtain ⟨n, hn⟩ := check_tlb_shape s ((get_page_number a : Nat) : Int)
  by_cases hm : (check_tlb s ((get_page_number a : Nat) : Int)).1 = -1
  · rw [if_pos hm, hn]
    exact cpt_bound_persist store _ _ q h
  · rw [if_neg hm, hn]
    exact h

theorem translate_step_load (store : BackingStore) (s : VmmState) (a : Nat) :
    (translate_step store s a).1.load =
      (if (check_tlb s ((get_page_number a : Nat) : Int)).1 = -1 ∧
          s.page_table.getD (get_page_number a) (-1) = -1 ∧
          fread_count store (get_page_number a * 256) ≠ 0 then
        some (get_page_number a) else none) := rfl

theorem fread_count_zero_iff (store : BackingStore) (pos : Nat) :
    fread_count store pos = 0 ↔ store.size ≤ pos := by
  rw [fread_count, Nat.min_def]
  split <;> omega

/-! ### The claims -/

/-- C7: address decomposition is pure, total and deterministic:
page_number is (A >> 8) & 0xFF (equivalently (A / 256) mod 256), offset is
A & 0xFF (equivalently A mod 256), bits of A above bit 15 are silently
discarded (reducing A mod 65536 changes nothing), and each translation's
output physical address equals frame * 256 + offset for the frame F the
request resolved to. -/
theorem c7_decomposition (a : Nat) (store : BackingStore) (s : VmmState) :
    get_page_number a = (a >>> 8) &&& 255 ∧
    get_page_number a = (a / 256) % 256 ∧
    get_offset a = a % 256 ∧
    get_page_number (a % 65536) = get_page_number a ∧
    get_offset (a % 65536) = get_offset a ∧
    (translate_step store s a).1.physical_address =
      (translate_step store s a).1.frame * 256 + (get_offset a : Int) := by
  refine ⟨?_, get_page_number_eq_mod a, get_offset_eq_mod a,
    get_page_number_mod_65536 a, get_offset_mod_65536 a, rfl⟩
  rw [get_page_number_eq_mod,
    show (255 : Nat) = 2 ^ 8 - 1 by norm_num,
    Nat.and_pow_two_sub_one_eq_mod, Nat.shiftRight_eq_div_pow]

/-- C4: with the specified 65536-byte backing store, the page-fault counter
increases by exactly 1 on the first reference to a page and by 0 on every
later reference to the same page, whether the later reference is served by
the TLB or by the page table. -/
theorem c4_fault_once_per_page (store : BackingStore)
    (hs : store.size = 65536) (xs : List Nat) (a : Nat) :
    (run_state store (xs ++ [a])).page_faults =
      (run_state store xs).page_faults +
        (if get_page_number a ∈ xs.map get_page_number then 0 else 1) := by
  have h1 := (seeninv_run store (by omega) xs).faults_eq
  have h2 := (seeninv_run store (by omega) (xs ++ [a])).faults_eq
  rw [h1, h2, List.map_append, List.map_singleton]
  by_cases hm : get_page_number a ∈ xs.map get_page_number
  · rw [if_pos hm, toFinset_card_append_mem _ _ hm]
    omega
  · rw [if_neg hm, toFinset_card_append_not_mem _ _ hm]

theorem c4_witness :
    (run_state ⟨fun _ => 0, 65536⟩ ([0] ++ [0])).page_faults =
      (run_state ⟨fun _ => 0, 65536⟩ [0]).page_faults +
        (if get_page_number 0 ∈ [0].map get_page_number then 0 else 1) :=
  c4_fault_once_per_page ⟨fun _ => 0, 65536⟩ rfl [0] 0

/-- C2: the code bug at the failing input: with an empty backing store and
the single address 0, the fault path returns the -1 sentinel and main still
forms physical address -256 and reads physical_memory at frame -1 (an
out-of-bounds access, observable as value none).  The second conjunct shows
frame exhaustion itself is unreachable: whenever any page in range is still
unmapped, a free frame remains, so the allocator can never be called with
an empty free list (only 256 page numbers exist for 256 frames). -/
theorem c2_invalid_frame_read :
    ((run_vmm ⟨fun _ => 0, 0⟩ [0]).1 =
      [{ logical_address := 0, physical_address := -256, value := none,
         frame := -1, load := none }]) ∧
    (∀ (store : BackingStore) (addrs : List Nat) (q : Nat), q < 256 →
      (run_state store addrs).page_table.getD q (-1) = -1 →
      0 < (run_state store addrs).number_of_free_frames) := by
  constructor
  · decide
  · intro store addrs q hq hunb
    have hinv := invcore_run store addrs
    have hlt : (run_state store addrs).page_table.countP
        (fun v => v != -1) < 256 := by
      have := countP_lt_of_getD (fun v => v != -1)
        (run_state store addrs).page_table q (-1)
        (by rw [hinv.pt_len]; exact hq) (by simp only [hunb]; decide)
      rw [hinv.pt_len] at this
      exact this
    have := hinv.frame_sum
    omega

theorem c2_witness :
    0 < (run_state ⟨fun _ => 0, 0⟩ []).number_of_free_frames :=
  c2_invalid_frame_read.2 ⟨fun _ => 0, 0⟩ [] 0 (by decide) (by decide)

/-- C5 counterexample: a backing store of one byte gives a short (1-byte)
read for page 0; the code does not treat it as an error: resolution returns
frame 0 and binds the page-table entry, although the read did not deliver a
full 256 bytes. -/
theorem c5_counterexample :
    fread_count ⟨fun _ => 0, 1⟩ (0 * 256) < 256 ∧
    (check_page_table ⟨fun _ => 0, 1⟩ initState 0).1 = 0 ∧
    (check_page_table ⟨fun _ => 0, 1⟩ initState 0).2.page_table.getD 0 (-1)
      = 0 := by
  refine ⟨by decide, ?_, ?_⟩ <;> decide

/-- C5 amended: the read fails only when fread delivers zero bytes, i.e.
when page*256 is at or past the end of the file; then resolution returns -1
and the state changes only by the fault-counter increment (no binding, no
allocation, no TLB insertion).  Any nonzero read - even a short one - is
accepted: resolution proceeds, allocates a frame in [0,255] and binds the
page-table entry to it. -/
theorem c5_zero_read_only (store : BackingStore) (s : VmmState) (page : Nat)
    (hp : page < 256) (hub : s.page_table.getD page (-1) = -1) :
    (store.size ≤ page * 256 →
      check_page_table store s page =
        (-1, { s with page_faults := s.page_faults + 1 })) ∧
    (InvCore s → page * 256 < store.size →
      0 ≤ (check_page_table store s page).1 ∧
      (check_page_table store s page).1 < 256 ∧
      (check_page_table store s page).2.page_table.getD page (-1) =
        (check_page_table store s page).1) := by
  constructor
  · intro hsz
    exact cpt_zero store s page hub ((fread_count_zero_iff store _).mpr hsz)
  · intro hinv hsz
    have hr : fread_count store (page * 256) ≠ 0 := by
      rw [Ne, fread_count_zero_iff]
      omega
    obtain ⟨i, hi256, hfree1, hfi, hc, heq⟩ :=
      cpt_unbound_success store s page hinv hp hub hr
    rw [heq]
    dsimp only
    refine ⟨by omega, by omega, ?_⟩
    rw [getD_set_self s.page_table page ((i : Int)) (-1)
      (by rw [hinv.pt_len]; exact hp)]

theorem c5_witness :
    check_page_table ⟨fun _ => 0, 0⟩ initState 0 =
      (-1, { initState with page_faults := initState.page_faults + 1 }) ∧
    0 ≤ (check_page_table ⟨fun _ => 0, 1⟩ initState 0).1 :=
  ⟨(c5_zero_read_only ⟨fun _ => 0, 0⟩ initState 0 (by decide)
      (by decide)).1 (by decide),
   ((c5_zero_read_only ⟨fun _ => 0, 1⟩ initState 0 (by decide)
      (by decide)).2 invcore_init (by decide)).1⟩


theorem empty_store_step (store : BackingStore) (h0 : store.size = 0)
    (t : VmmState) (hpt : ∀ q, t.page_table.getD q (-1) = -1)
    (htlb : ∀ e ∈ t.tlb, ¬ e.valid = 1) (a : Nat) :
    (translate_step store t a).2.page_table = t.page_table ∧
    (translate_step store t a).2.tlb = t.tlb ∧
    (translate_step store t a).2.page_faults = t.page_faults + 1 := by
  rw [translate_step_snd]
  have hmiss : check_tlb t ((get_page_number a : Nat) : Int) = (-1, t) :=
    check_tlb_miss t _ (fun e he hc => htlb e he hc.1)
  rw [hmiss]
  dsimp only
  rw [if_pos rfl]
  rw [cpt_zero store t _ (hpt _) (by rw [fread_count_zero_iff]; omega)]
  exact ⟨rfl, rfl, rfl⟩

theorem empty_store_run_aux (store : BackingStore) (h0 : store.size = 0)
    (l : List Nat) :
    ∀ t : VmmState, (∀ q, t.page_table.getD q (-1) = -1) →
      (∀ e ∈ t.tlb, ¬ e.valid = 1) →
      (l.foldl (fun s a => (translate_step store s a).2) t).page_faults =
        t.page_faults + l.length := by
  induction l with
  | nil => intro t _ _; simp
  | cons a l ih =>
      intro t hpt htlb
      obtain ⟨h1, h2, h3⟩ := empty_store_step store h0 t hpt htlb a
      rw [List.foldl_cons]
      rw [ih (translate_step store t a).2 (by rw [h1]; exact hpt)
        (by rw [h2]; exact htlb)]
      rw [h3, List.length_cons]
      omega

/-- C10: when the backing-store read delivers zero bytes during a fault,
check_page_table increments the fault counter but returns the -1 sentinel
with no other state change (no allocation, no binding, no TLB insert), so the
page stays unmapped; consequently with an empty backing store every
reference faults again, making the fault count equal to the number of
references - which exceeds the number of distinct pages as soon as a page is
referenced twice (concretely, three references to address 0 give 3 faults
for 1 distinct page). -/
theorem c10_zero_read_refault :
    (∀ (store : BackingStore) (s : VmmState) (page : Nat),
      s.page_table.getD page (-1) = -1 → store.size ≤ page * 256 →
      check_page_table store s page =
        (-1, { s with page_faults := s.page_faults + 1 })) ∧
    (∀ store : BackingStore, store.size = 0 → ∀ addrs : List Nat,
      (run_state store addrs).page_faults = addrs.length) ∧
    ((run_state ⟨fun _ => 0, 0⟩ [0, 0, 0]).page_faults = 3 ∧
      ([0, 0, 0].map get_page_number).toFinset.card = 1) := by
  refine ⟨?_, ?_, by decide, by decide⟩
  · intro store s page hb hsz
    exact cpt_zero store s page hb ((fread_count_zero_iff store _).mpr hsz)
  · intro store h0 addrs
    have hpt : ∀ q, initState.page_table.getD q (-1) = -1 := by
      intro q
      rw [show initState.page_table = List.replicate 256 (-1) from rfl,
        getD_replicate]
      split <;> rfl
    have htlb : ∀ e ∈ initState.tlb, ¬ e.valid = 1 := by
      intro e he
      rw [show initState.tlb = List.replicate 16 ⟨-1, -1, -1⟩ from rfl] at he
      rcases List.mem_replicate.mp he with ⟨-, rfl⟩
      intro hc
      cases hc
    have h := empty_store_run_aux store h0 addrs initState hpt htlb
    rw [run_state, h]
    show 0 + addrs.length = addrs.length
    omega

theorem c10_witness :
    check_page_table ⟨fun _ => 0, 0⟩ initState 0 =
      (-1, { initState with page_faults := initState.page_faults + 1 }) ∧
    (run_state ⟨fun _ => 0, 0⟩ [0, 0]).page_faults = [0, 0].length :=
  ⟨c10_zero_read_refault.1 ⟨fun _ => 0, 0⟩ initState 0 (by decide) (by decide),
   c10_zero_read_refault.2.1 ⟨fun _ => 0, 0⟩ rfl [0, 0]⟩

/-- C8: TLB lookup scans slots in ascending index order from 0 and returns
the frame of the first valid matching entry, incrementing tlb_hits exactly
then; when no valid entry matches, it returns -1 and the state (in
particular tlb_hits) is unchanged, so a miss resolved through the page table
never increments tlb_hits. -/
theorem c8_lookup_first_match (s : VmmState) (p : Int) :
    ((∀ e ∈ s.tlb, ¬(e.valid = 1 ∧ e.page_number = p)) →
      check_tlb s p = (-1, s)) ∧
    ((∃ e ∈ s.tlb, e.valid = 1 ∧ e.page_number = p) →
      ∃ i, ∃ h : i < s.tlb.length,
        (s.tlb.get ⟨i, h⟩).valid = 1 ∧ (s.tlb.get ⟨i, h⟩).page_number = p ∧
        (∀ j (hj : j < s.tlb.length), j < i →
          ¬((s.tlb.get ⟨j, hj⟩).valid = 1 ∧
            (s.tlb.get ⟨j, hj⟩).page_number = p)) ∧
        check_tlb s p =
          ((s.tlb.get ⟨i, h⟩).frame_number,
            { s with tlb_hits := s.tlb_hits + 1 })) := by
  constructor
  · exact check_tlb_miss s p
  · rintro ⟨e, he, hv, hpe⟩
    obtain ⟨i, hfi⟩ := find_first_isSome
      (fun e => e.page_number == p && e.valid == 1) s.tlb e he
      (by simp [hpe, hv])
    obtain ⟨hlt, hp, hmin⟩ := find_first_some _ _ _ hfi
    simp only [Bool.and_eq_true, beq_iff_eq] at hp
    refine ⟨i, hlt, hp.2, hp.1, ?_, ?_⟩
    · intro j hj hji hconj
      have hj2 := hmin j hj hji
      rw [hconj.2, hconj.1] at hj2
      simp at hj2
    · rw [check_tlb, hfi]
      dsimp only
      rw [getD_eq_get s.tlb i ⟨-1, -1, -1⟩ hlt]

theorem c8_witness :
    ∃ i, ∃ h : i < (update_tlb initState 5 7).tlb.length,
      ((update_tlb initState 5 7).tlb.get ⟨i, h⟩).valid = 1 ∧
      ((update_tlb initState 5 7).tlb.get ⟨i, h⟩).page_number = 5 ∧
      (∀ j (hj : j < (update_tlb initState 5 7).tlb.length), j < i →
        ¬(((update_tlb initState 5 7).tlb.get ⟨j, hj⟩).valid = 1 ∧
          ((update_tlb initState 5 7).tlb.get ⟨j, hj⟩).page_number = 5)) ∧
      check_tlb (update_tlb initState 5 7) 5 =
        (((update_tlb initState 5 7).tlb.get ⟨i, h⟩).frame_number,
          { update_tlb initState 5 7 with
              tlb_hits := (update_tlb initState 5 7).tlb_hits + 1 }) :=
  (c8_lookup_first_match (update_tlb initState 5 7) 5).2
    (by decide)

theorem gnf_free_mono (t : VmmState) (i : Nat)
    (h : t.free_frames.getD i 0 = -1) :
    (get_next_free_frame t).2.free_frames.getD i 0 = -1 := by
  rw [get_next_free_frame]
  split
  · cases hf : find_first (fun f => f != -1) t.free_frames with
    | none => exact h
    | some j =>
        dsimp only
        obtain ⟨hjlt, -, -⟩ := find_first_some _ _ _ hf
        by_cases hij : j = i
        · subst hij
          rw [getD_set_self t.free_frames j (-1) 0 hjlt]
        · rw [getD_set_ne t.free_frames j i (-1) 0 hij]
          exact h
  · exact h

theorem cpt_free_shape (store : BackingStore) (t : VmmState) (page : Nat)
    (i : Nat) (h : t.free_frames.getD i 0 = -1) :
    (check_page_table store t page).2.free_frames.getD i 0 = -1 := by
  by_cases hb : t.page_table.getD page (-1) = -1
  · by_cases hr : fread_count store (page * 256) = 0
    · rw [cpt_zero store t page hb hr]
      exact h
    · simp only [check_page_table]
      rw [if_pos hb, if_neg hr]
      dsimp only
      split <;> exact gnf_free_mono _ i h
  · rw [cpt_hit store t page hb]
    exact h

theorem free_step_mono (store : BackingStore) (s : VmmState) (a : Nat)
    (i : Nat) (h : s.free_frames.getD i 0 = -1) :
    (translate_step store s a).2.free_frames.getD i 0 = -1 := by
  rw [translate_step_snd]
  obtain ⟨n, hn⟩ := check_tlb_shape s ((get_page_number a : Nat) : Int)
  by_cases hm : (check_tlb s ((get_page_number a : Nat) : Int)).1 = -1
  · rw [if_pos hm, hn]
    exact cpt_free_shape store _ _ i h
  · rw [if_neg hm, hn]
    exact h

theorem free_foldl_mono (store : BackingStore) (l : List Nat) :
    ∀ (t : VmmState) (i : Nat), t.free_frames.getD i 0 = -1 →
      (l.foldl (fun s a => (translate_step store s a).2) t).free_frames.getD
        i 0 = -1 := by
  induction l with
  | nil => intro t i h; exact h
  | cons a l ih =>
      intro t i h
      rw [List.foldl_cons]
      exact ih _ i (free_step_mono store t a i h)

/-- C9: the frame allocator removes and returns the lowest-numbered frame id
still free and decrements the free count; when the free list is empty (all
entries occupied) it returns the explicit -1 exhausted signal and changes
nothing; and over any run the free list only shrinks - a frame marked
occupied stays occupied for the rest of the run (no release exists). -/
theorem c9_allocator :
    (∀ s : VmmState,
      s.number_of_free_frames = s.free_frames.countP (fun v => v != -1) →
      ((∀ v ∈ s.free_frames, v = -1) → get_next_free_frame s = (-1, s)) ∧
      (∀ i, i < s.free_frames.length → s.free_frames.getD i 0 ≠ -1 →
        (∀ j, j < i → s.free_frames.getD j 0 = -1) →
        get_next_free_frame s =
          ((i : Int),
            { s with free_frames := s.free_frames.set i (-1),
                     number_of_free_frames :=
                       s.number_of_free_frames - 1 }))) ∧
    (∀ (store : BackingStore) (xs ys : List Nat) (i : Nat),
      (run_state store xs).free_frames.getD i 0 = -1 →
      (run_state store (xs ++ ys)).free_frames.getD i 0 = -1) := by
  constructor
  · intro s hcnt
    constructor
    · intro hall
      apply gnf_exhausted
      rw [hcnt]
      rw [List.countP_eq_zero.mpr]
      intro v hv
      simp [hall v hv]
    · intro i hi hfree hmin
      have hpred : ((s.free_frames.getD i 0 != -1) : Bool) = true := by
        simp only [bne_iff_ne]
        exact hfree
      obtain ⟨j, hfj⟩ := find_first_isSome (fun v => v != -1) s.free_frames
        (s.free_frames.getD i 0) (getD_mem s.free_frames i 0 hi) hpred
      obtain ⟨hjlt, hjp, hjmin⟩ := find_first_some _ _ _ hfj
      have hij : i = j := by
        rcases Nat.lt_trichotomy i j with hlt | heq | hgt
        · exfalso
          have := hjmin i hi hlt
          rw [← getD_eq_get s.free_frames i 0 hi] at this
          rw [this] at hpred
          cases hpred
        · exact heq
        · exfalso
          have := hmin j hgt
          rw [getD_eq_get s.free_frames j 0 hjlt] at this
          rw [this] at hjp
          cases hjp
      subst hij
      have hc : 0 < s.number_of_free_frames := by
        rw [hcnt]
        rw [List.countP_pos_iff]
        exact ⟨s.free_frames.getD i 0, getD_mem s.free_frames i 0 hi, hpred⟩
      exact gnf_success s i hc hfj
  · intro store xs ys i h
    rw [run_state_append]
    exact free_foldl_mono store ys (run_state store xs) i h

set_option maxRecDepth 10000 in
theorem c9_witness :
    get_next_free_frame initState =
      ((0 : Int),
        { initState with
            free_frames := initState.free_frames.set 0 (-1),
            number_of_free_frames := initState.number_of_free_frames - 1 }) :=
  (c9_allocator.1 initState (by decide)).2 0 (by decide) (by decide)
    (fun j hj => absurd hj (Nat.not_lt_zero j))


/-- C1 counterexample: pages 0..16 are referenced once each (17 faults, TLB
filled and page 0 evicted by the 17th insertion), then page 0 is referenced
again: no TLB hit ever occurs (tlb_hits stays 0) and the final reference adds
no fault (page_faults stays 17), so it was resolved by a page-table hit after
a TLB miss - yet afterwards the TLB still holds no entry for page 0.  This
contradicts the claim that a TLB entry is created on every page-table
resolution that is not already a TLB hit. -/
theorem c1_counterexample :
    (run_state ⟨fun _ => 0, 65536⟩
        [0, 256, 512, 768, 1024, 1280, 1536, 1792, 2048, 2304, 2560, 2816,
         3072, 3328, 3584, 3840, 4096, 0]).tlb_hits = 0 ∧
    (run_state ⟨fun _ => 0, 65536⟩
        [0, 256, 512, 768, 1024, 1280, 1536, 1792, 2048, 2304, 2560, 2816,
         3072, 3328, 3584, 3840, 4096, 0]).page_faults = 17 ∧
    ((run_state ⟨fun _ => 0, 65536⟩
        [0, 256, 512, 768, 1024, 1280, 1536, 1792, 2048, 2304, 2560, 2816,
         3072, 3328, 3584, 3840, 4096, 0]).tlb.all
      (fun e => !(e.page_number == 0 && e.valid == 1))) = true := by
  refine ⟨?_, ?_, ?_⟩ <;> decide

/-- C1 amended: a TLB entry is inserted exactly on the page-table fault path
whose backing-store read delivers bytes: a page-table hit (page already
bound) returns the frame and leaves the whole state - in particular the TLB
and its cursor - unchanged; a fault whose read delivers zero bytes also
leaves the TLB unchanged; a fault whose read delivers bytes writes exactly
one entry (page, returned frame) at the current cursor and advances it. -/
theorem c1_insert_only_on_fault (store : BackingStore) (s : VmmState)
    (page : Nat) :
    (s.page_table.getD page (-1) ≠ -1 →
      check_page_table store s page = (s.page_table.getD page (-1), s)) ∧
    (s.page_table.getD page (-1) = -1 →
      fread_count store (page * 256) = 0 →
      (check_page_table store s page).2.tlb = s.tlb ∧
      (check_page_table store s page).2.next_free_tlb_index =
        s.next_free_tlb_index) ∧
    (s.page_table.getD page (-1) = -1 →
      fread_count store (page * 256) ≠ 0 →
      (check_page_table store s page).2.tlb =
        s.tlb.set s.next_free_tlb_index
          ⟨(page : Int), (check_page_table store s page).1, 1⟩ ∧
      (check_page_table store s page).2.next_free_tlb_index =
        (s.next_free_tlb_index + 1) % TLB_SIZE) := by
  refine ⟨cpt_hit store s page, ?_, ?_⟩
  · intro h1 h2
    rw [cpt_zero store s page h1 h2]
    exact ⟨rfl, rfl⟩
  · intro h1 h2
    simp only [check_page_table]
    rw [if_pos h1, if_neg h2]
    dsimp only
    constructor
    · show (update_tlb _ ((page : Nat) : Int) _).tlb = _
      rw [update_tlb]
      split <;>
        · dsimp only
          rw [(gnf_tlb_cursor _).1, (gnf_tlb_cursor _).2]
    · show (update_tlb _ ((page : Nat) : Int) _).next_free_tlb_index = _
      rw [update_tlb]
      split <;>
        · dsimp only
          rw [(gnf_tlb_cursor _).2]

theorem c1_witness :
    (check_page_table ⟨fun _ => 0, 65536⟩ initState 0).2.tlb =
      initState.tlb.set initState.next_free_tlb_index
        ⟨(0 : Int), (check_page_table ⟨fun _ => 0, 65536⟩ initState 0).1, 1⟩ ∧
    (check_page_table ⟨fun _ => 0, 65536⟩ initState 0).2.next_free_tlb_index
      = (initState.next_free_tlb_index + 1) % TLB_SIZE :=
  (c1_insert_only_on_fault ⟨fun _ => 0, 65536⟩ initState 0).2.2 (by decide)
    (by decide)


/-- C3: the TLB never holds more than 16 valid entries over any run
(capacity bound); filling the freshly initialised cache with 16 distinct
pages makes all 16 slots valid and the first page is still found (frame f0);
inserting a 17th distinct page overwrites slot 0 (the slot of the page
inserted first) and advances the cursor to 1, and a subsequent lookup of
that first-inserted page misses the cache (-1). -/
theorem c3_fifo_eviction
    (p0 p1 p2 p3 p4 p5 p6 p7 p8 p9 p10 p11 p12 p13 p14 p15 p16 : Int)
    (f0 f1 f2 f3 f4 f5 f6 f7 f8 f9 f10 f11 f12 f13 f14 f15 f16 : Int)
    (hd : p0 ∉ [p1, p2, p3, p4, p5, p6, p7, p8, p9, p10, p11, p12, p13,
      p14, p15, p16]) :
    (∀ (store : BackingStore) (addrs : List Nat),
      (run_state store addrs).tlb.countP (fun e => e.valid == 1) ≤ 16) ∧
    ((tlb_fill [(p0, f0), (p1, f1), (p2, f2), (p3, f3), (p4, f4), (p5, f5),
        (p6, f6), (p7, f7), (p8, f8), (p9, f9), (p10, f10), (p11, f11),
        (p12, f12), (p13, f13), (p14, f14), (p15, f15)]).tlb.countP
      (fun e => e.valid == 1) = 16) ∧
    ((check_tlb (tlb_fill [(p0, f0), (p1, f1), (p2, f2), (p3, f3), (p4, f4),
        (p5, f5), (p6, f6), (p7, f7), (p8, f8), (p9, f9), (p10, f10),
        (p11, f11), (p12, f12), (p13, f13), (p14, f14), (p15, f15)])
      p0).1 = f0) ∧
    ((tlb_fill [(p0, f0), (p1, f1), (p2, f2), (p3, f3), (p4, f4), (p5, f5),
        (p6, f6), (p7, f7), (p8, f8), (p9, f9), (p10, f10), (p11, f11),
        (p12, f12), (p13, f13), (p14, f14), (p15, f15), (p16, f16)]).tlb.getD
      0 ⟨-1, -1, -1⟩ = ⟨p16, f16, 1⟩) ∧
    ((tlb_fill [(p0, f0), (p1, f1), (p2, f2), (p3, f3), (p4, f4), (p5, f5),
        (p6, f6), (p7, f7), (p8, f8), (p9, f9), (p10, f10), (p11, f11),
        (p12, f12), (p13, f13), (p14, f14), (p15, f15),
        (p16, f16)]).next_free_tlb_index = 1) ∧
    ((check_tlb (tlb_fill [(p0, f0), (p1, f1), (p2, f2), (p3, f3), (p4, f4),
        (p5, f5), (p6, f6), (p7, f7), (p8, f8), (p9, f9), (p10, f10),
        (p11, f11), (p12, f12), (p13, f13), (p14, f14), (p15, f15),
        (p16, f16)]) p0).1 = -1) := by
  simp only [List.mem_cons, List.not_mem_nil, or_false, not_or] at hd
  obtain ⟨hd1, hd2, hd3, hd4, hd5, hd6, hd7, hd8, hd9, hd10, hd11, hd12,
    hd13, hd14, hd15, hd16⟩ := hd
  have s0 : update_tlb initState p0 f0 =
      { initState with
      tlb := [⟨p0, f0, 1⟩, ⟨-1, -1, -1⟩, ⟨-1, -1, -1⟩, ⟨-1, -1, -1⟩, ⟨-1, -1, -1⟩, ⟨-1, -1, -1⟩, ⟨-1, -1, -1⟩, ⟨-1, -1, -1⟩, ⟨-1, -1, -1⟩, ⟨-1, -1, -1⟩, ⟨-1, -1, -1⟩, ⟨-1, -1, -1⟩, ⟨-1, -1, -1⟩, ⟨-1, -1, -1⟩, ⟨-1, -1, -1⟩, ⟨-1, -1, -1⟩]
      next_free_tlb_index := 1 } := rfl
  have s1 : update_tlb { initState with
      tlb := [⟨p0, f0, 1⟩, ⟨-1, -1, -1⟩, ⟨-1, -1, -1⟩, ⟨-1, -1, -1⟩, ⟨-1, -1, -1⟩, ⟨-1, -1, -1⟩, ⟨-1, -1, -1⟩, ⟨-1, -1, -1⟩, ⟨-1, -1, -1⟩, ⟨-1, -1, -1⟩, ⟨-1, -1, -1⟩, ⟨-1, -1, -1⟩, ⟨-1, -1, -1⟩, ⟨-1, -1, -1⟩, ⟨-1, -1, -1⟩, ⟨-1, -1, -1⟩]
      next_free_tlb_index := 1 } p1 f1 =
      { initState with
      tlb := [⟨p0, f0, 1⟩, ⟨p1, f1, 1⟩, ⟨-1, -1, -1⟩, ⟨-1, -1, -1⟩, ⟨-1, -1, -1⟩, ⟨-1, -1, -1⟩, ⟨-1, -1, -1⟩, ⟨-1, -1, -1⟩, ⟨-1, -1, -1⟩, ⟨-1, -1, -1⟩, ⟨-1, -1, -1⟩, ⟨-1, -1, -1⟩, ⟨-1, -1, -1⟩, ⟨-1, -1, -1⟩, ⟨-1, -1, -1⟩, ⟨-1, -1, -1⟩]
      next_free_tlb_index := 2 } := rfl
  have s2 : update_tlb { initState with
      tlb := [⟨p0, f0, 1⟩, ⟨p1, f1, 1⟩, ⟨-1, -1, -1⟩, ⟨-1, -1, -1⟩, ⟨-1, -1, -1⟩, ⟨-1, -1, -1⟩, ⟨-1, -1, -1⟩, ⟨-1, -1, -1⟩, ⟨-1, -1, -1⟩, ⟨-1, -1, -1⟩, ⟨-1, -1, -1⟩, ⟨-1, -1, -1⟩, ⟨-1, -1, -1⟩, ⟨-1, -1, -1⟩, ⟨-1, -1, -1⟩, ⟨-1, -1, -1⟩]
      next_free_tlb_index := 2 } p2 f2 =
      { initState with
      tlb := [⟨p0, f0, 1⟩, ⟨p1, f1, 1⟩, ⟨p2, f2, 1⟩, ⟨-1, -1, -1⟩, ⟨-1, -1, -1⟩, ⟨-1, -1, -1⟩, ⟨-1, -1, -1⟩, ⟨-1, -1, -1⟩, ⟨-1, -1, -1⟩, ⟨-1, -1, -1⟩, ⟨-1, -1, -1⟩, ⟨-1, -1, -1⟩, ⟨-1, -1, -1⟩, ⟨-1, -1, -1⟩, ⟨-1, -1, -1⟩, ⟨-1, -1, -1⟩]
      next_free_tlb_index := 3 } := rfl
  have s3 : update_tlb { initState with
      tlb := [⟨p0, f0, 1⟩, ⟨p1, f1, 1⟩, ⟨p2, f2, 1⟩, ⟨-1, -1, -1⟩, ⟨-1, -1, -1⟩, ⟨-1, -1, -1⟩, ⟨-1, -1, -1⟩, ⟨-1, -1, -1⟩, ⟨-1, -1, -1⟩, ⟨-1, -1, -1⟩, ⟨-1, -1, -1⟩, ⟨-1, -1, -1⟩, ⟨-1, -1, -1⟩, ⟨-1, -1, -1⟩, ⟨-1, -1, -1⟩, ⟨-1, -1, -1⟩]
      next_free_tlb_index := 3 } p3 f3 =
      { initState with
      tlb := [⟨p0, f0, 1⟩, ⟨p1, f1, 1⟩, ⟨p2, f2, 1⟩, ⟨p3, f3, 1⟩, ⟨-1, -1, -1⟩, ⟨-1, -1, -1⟩, ⟨-1, -1, -1⟩, ⟨-1, -1, -1⟩, ⟨-1, -1, -1⟩, ⟨-1, -1, -1⟩, ⟨-1, -1, -1⟩, ⟨-1, -1, -1⟩, ⟨-1, -1, -1⟩, ⟨-1, -1, -1⟩, ⟨-1, -1, -1⟩, ⟨-1, -1, -1⟩]
      next_free_tlb_index := 4 } := rfl
  have s4 : update_tlb { initState with
      tlb := [⟨p0, f0, 1⟩, ⟨p1, f1, 1⟩, ⟨p2, f2, 1⟩, ⟨p3, f3, 1⟩, ⟨-1, -1, -1⟩, ⟨-1, -1, -1⟩, ⟨-1, -1, -1⟩, ⟨-1, -1, -1⟩, ⟨-1, -1, -1⟩, ⟨-1, -1, -1⟩, ⟨-1, -1, -1⟩, ⟨-1, -1, -1⟩, ⟨-1, -1, -1⟩, ⟨-1, -1, -1⟩, ⟨-1, -1, -1⟩, ⟨-1, -1, -1⟩]
      next_free_tlb_index := 4 } p4 f4 =
      { initState with
      tlb := [⟨p0, f0, 1⟩, ⟨p1, f1, 1⟩, ⟨p2, f2, 1⟩, ⟨p3, f3, 1⟩, ⟨p4, f4, 1⟩, ⟨-1, -1, -1⟩, ⟨-1, -1, -1⟩, ⟨-1, -1, -1⟩, ⟨-1, -1, -1⟩, ⟨-1, -1, -1⟩, ⟨-1, -1, -1⟩, ⟨-1, -1, -1⟩, ⟨-1, -1, -1⟩, ⟨-1, -1, -1⟩, ⟨-1, -1, -1⟩, ⟨-1, -1, -1⟩]
      next_free_tlb_index := 5 } := rfl
  have s5 : update_tlb { initState with
      tlb := [⟨p0, f0, 1⟩, ⟨p1, f1, 1⟩, ⟨p2, f2, 1⟩, ⟨p3, f3, 1⟩, ⟨p4, f4, 1⟩, ⟨-1, -1, -1⟩, ⟨-1, -1, -1⟩, ⟨-1, -1, -1⟩, ⟨-1, -1, -1⟩, ⟨-1, -1, -1⟩, ⟨-1, -1, -1⟩, ⟨-1, -1, -1⟩, ⟨-1, -1, -1⟩, ⟨-1, -1, -1⟩, ⟨-1, -1, -1⟩, ⟨-1, -1, -1⟩]
      next_free_tlb_index := 5 } p5 f5 =
      { initState with
      tlb := [⟨p0, f0, 1⟩, ⟨p1, f1, 1⟩, ⟨p2, f2, 1⟩, ⟨p3, f3, 1⟩, ⟨p4, f4, 1⟩, ⟨p5, f5, 1⟩, ⟨-1, -1, -1⟩, ⟨-1, -1, -1⟩, ⟨-1, -1, -1⟩, ⟨-1, -1, -1⟩, ⟨-1, -1, -1⟩, ⟨-1, -1, -1⟩, ⟨-1, -1, -1⟩, ⟨-1, -1, -1⟩, ⟨-1, -1, -1⟩, ⟨-1, -1, -1⟩]
      next_free_tlb_index := 6 } := rfl
  have s6 : update_tlb { initState with
      tlb := [⟨p0, f0, 1⟩, ⟨p1, f1, 1⟩, ⟨p2, f2, 1⟩, ⟨p3, f3, 1⟩, ⟨p4, f4, 1⟩, ⟨p5, f5, 1⟩, ⟨-1, -1, -1⟩, ⟨-1, -1, -1⟩, ⟨-1, -1, -1⟩, ⟨-1, -1, -1⟩, ⟨-1, -1, -1⟩, ⟨-1, -1, -1⟩, ⟨-1, -1, -1⟩, ⟨-1, -1, -1⟩, ⟨-1, -1, -1⟩, ⟨-1, -1, -1⟩]
      next_free_tlb_index := 6 } p6 f6 =
      { initState with
      tlb := [⟨p0, f0, 1⟩, ⟨p1, f1, 1⟩, ⟨p2, f2, 1⟩, ⟨p3, f3, 1⟩, ⟨p4, f4, 1⟩, ⟨p5, f5, 1⟩, ⟨p6, f6, 1⟩, ⟨-1, -1, -1⟩, ⟨-1, -1, -1⟩, ⟨-1, -1, -1⟩, ⟨-1, -1, -1⟩, ⟨-1, -1, -1⟩, ⟨-1, -1, -1⟩, ⟨-1, -1, -1⟩, ⟨-1, -1, -1⟩, ⟨-1, -1, -1⟩]
      next_free_tlb_index := 7 } := rfl
  have s7 : update_tlb { initState with
      tlb := [⟨p0, f0, 1⟩, ⟨p1, f1, 1⟩, ⟨p2, f2, 1⟩, ⟨p3, f3, 1⟩, ⟨p4, f4, 1⟩, ⟨p5, f5, 1⟩, ⟨p6, f6, 1⟩, ⟨-1, -1, -1⟩, ⟨-1, -1, -1⟩, ⟨-1, -1, -1⟩, ⟨-1, -1, -1⟩, ⟨-1, -1, -1⟩, ⟨-1, -1, -1⟩, ⟨-1, -1, -1⟩, ⟨-1, -1, -1⟩, ⟨-1, -1, -1⟩]
      next_free_tlb_index := 7 } p7 f7 =
      { initState with
      tlb := [⟨p0, f0, 1⟩, ⟨p1, f1, 1⟩, ⟨p2, f2, 1⟩, ⟨p3, f3, 1⟩, ⟨p4, f4, 1⟩, ⟨p5, f5, 1⟩, ⟨p6, f6, 1⟩, ⟨p7, f7, 1⟩, ⟨-1, -1, -1⟩, ⟨-1, -1, -1⟩, ⟨-1, -1, -1⟩, ⟨-1, -1, -1⟩, ⟨-1, -1, -1⟩, ⟨-1, -1, -1⟩, ⟨-1, -1, -1⟩, ⟨-1, -1, -1⟩]
      next_free_tlb_index := 8 } := rfl
  have s8 : update_tlb { initState with
      tlb := [⟨p0, f0, 1⟩, ⟨p1, f1, 1⟩, ⟨p2, f2, 1⟩, ⟨p3, f3, 1⟩, ⟨p4, f4, 1⟩, ⟨p5, f5, 1⟩, ⟨p6, f6, 1⟩, ⟨p7, f7, 1⟩, ⟨-1, -1, -1⟩, ⟨-1, -1, -1⟩, ⟨-1, -1, -1⟩, ⟨-1, -1, -1⟩, ⟨-1, -1, -1⟩, ⟨-1, -1, -1⟩, ⟨-1, -1, -1⟩, ⟨-1, -1, -1⟩]
      next_free_tlb_index := 8 } p8 f8 =
      { initState with
      tlb := [⟨p0, f0, 1⟩, ⟨p1, f1, 1⟩, ⟨p2, f2, 1⟩, ⟨p3, f3, 1⟩, ⟨p4, f4, 1⟩, ⟨p5, f5, 1⟩, ⟨p6, f6, 1⟩, ⟨p7, f7, 1⟩, ⟨p8, f8, 1⟩, ⟨-1, -1, -1⟩, ⟨-1, -1, -1⟩, ⟨-1, -1, -1⟩, ⟨-1, -1, -1⟩, ⟨-1, -1, -1⟩, ⟨-1, -1, -1⟩, ⟨-1, -1, -1⟩]
      next_free_tlb_index := 9 } := rfl
  have s9 : update_tlb { initState with
      tlb := [⟨p0, f0, 1⟩, ⟨p1, f1, 1⟩, ⟨p2, f2, 1⟩, ⟨p3, f3, 1⟩, ⟨p4, f4, 1⟩, ⟨p5, f5, 1⟩, ⟨p6, f6, 1⟩, ⟨p7, f7, 1⟩, ⟨p8, f8, 1⟩, ⟨-1, -1, -1⟩, ⟨-1, -1, -1⟩, ⟨-1, -1, -1⟩, ⟨-1, -1, -1⟩, ⟨-1, -1, -1⟩, ⟨-1, -1, -1⟩, ⟨-1, -1, -1⟩]
      next_free_tlb_index := 9 } p9 f9 =
      { initState with
      tlb := [⟨p0, f0, 1⟩, ⟨p1, f1, 1⟩, ⟨p2, f2, 1⟩, ⟨p3, f3, 1⟩, ⟨p4, f4, 1⟩, ⟨p5, f5, 1⟩, ⟨p6, f6, 1⟩, ⟨p7, f7, 1⟩, ⟨p8, f8, 1⟩, ⟨p9, f9, 1⟩, ⟨-1, -1, -1⟩, ⟨-1, -1, -1⟩, ⟨-1, -1, -1⟩, ⟨-1, -1, -1⟩, ⟨-1, -1, -1⟩, ⟨-1, -1, -1⟩]
      next_free_tlb_index := 10 } := rfl
  have s10 : update_tlb { initState with
      tlb := [⟨p0, f0, 1⟩, ⟨p1, f1, 1⟩, ⟨p2, f2, 1⟩, ⟨p3, f3, 1⟩, ⟨p4, f4, 1⟩, ⟨p5, f5, 1⟩, ⟨p6, f6, 1⟩, ⟨p7, f7, 1⟩, ⟨p8, f8, 1⟩, ⟨p9, f9, 1⟩, ⟨-1, -1, -1⟩, ⟨-1, -1, -1⟩, ⟨-1, -1, -1⟩, ⟨-1, -1, -1⟩, ⟨-1, -1, -1⟩, ⟨-1, -1, -1⟩]
      next_free_tlb_index := 10 } p10 f10 =
      { initState with
      tlb := [⟨p0, f0, 1⟩, ⟨p1, f1, 1⟩, ⟨p2, f2, 1⟩, ⟨p3, f3, 1⟩, ⟨p4, f4, 1⟩, ⟨p5, f5, 1⟩, ⟨p6, f6, 1⟩, ⟨p7, f7, 1⟩, ⟨p8, f8, 1⟩, ⟨p9, f9, 1⟩, ⟨p10, f10, 1⟩, ⟨-1, -1, -1⟩, ⟨-1, -1, -1⟩, ⟨-1, -1, -1⟩, ⟨-1, -1, -1⟩, ⟨-1, -1, -1⟩]
      next_free_tlb_index := 11 } := rfl
  have s11 : update_tlb { initState with
      tlb := [⟨p0, f0, 1⟩, ⟨p1, f1, 1⟩, ⟨p2, f2, 1⟩, ⟨p3, f3, 1⟩, ⟨p4, f4, 1⟩, ⟨p5, f5, 1⟩, ⟨p6, f6, 1⟩, ⟨p7, f7, 1⟩, ⟨p8, f8, 1⟩, ⟨p9, f9, 1⟩, ⟨p10, f10, 1⟩, ⟨-1, -1, -1⟩, ⟨-1, -1, -1⟩, ⟨-1, -1, -1⟩, ⟨-1, -1, -1⟩, ⟨-1, -1, -1⟩]
      next_free_tlb_index := 11 } p11 f11 =
      { initState with
      tlb := [⟨p0, f0, 1⟩, ⟨p1, f1, 1⟩, ⟨p2, f2, 1⟩, ⟨p3, f3, 1⟩, ⟨p4, f4, 1⟩, ⟨p5, f5, 1⟩, ⟨p6, f6, 1⟩, ⟨p7, f7, 1⟩, ⟨p8, f8, 1⟩, ⟨p9, f9, 1⟩, ⟨p10, f10, 1⟩, ⟨p11, f11, 1⟩, ⟨-1, -1, -1⟩, ⟨-1, -1, -1⟩, ⟨-1, -1, -1⟩, ⟨-1, -1, -1⟩]
      next_free_tlb_index := 12 } := rfl
  have s12 : update_tlb { initState with
      tlb := [⟨p0, f0, 1⟩, ⟨p1, f1, 1⟩, ⟨p2, f2, 1⟩, ⟨p3, f3, 1⟩, ⟨p4, f4, 1⟩, ⟨p5, f5, 1⟩, ⟨p6, f6, 1⟩, ⟨p7, f7, 1⟩, ⟨p8, f8, 1⟩, ⟨p9, f9, 1⟩, ⟨p10, f10, 1⟩, ⟨p11, f11, 1⟩, ⟨-1, -1, -1⟩, ⟨-1, -1, -1⟩, ⟨-1, -1, -1⟩, ⟨-1, -1, -1⟩]
      next_free_tlb_index := 12 } p12 f12 =
      { initState with
      tlb := [⟨p0, f0, 1⟩, ⟨p1, f1, 1⟩, ⟨p2, f2, 1⟩, ⟨p3, f3, 1⟩, ⟨p4, f4, 1⟩, ⟨p5, f5, 1⟩, ⟨p6, f6, 1⟩, ⟨p7, f7, 1⟩, ⟨p8, f8, 1⟩, ⟨p9, f9, 1⟩, ⟨p10, f10, 1⟩, ⟨p11, f11, 1⟩, ⟨p12, f12, 1⟩, ⟨-1, -1, -1⟩, ⟨-1, -1, -1⟩, ⟨-1, -1, -1⟩]
      next_free_tlb_index := 13 } := rfl
  have s13 : update_tlb { initState with
      tlb := [⟨p0, f0, 1⟩, ⟨p1, f1, 1⟩, ⟨p2, f2, 1⟩, ⟨p3, f3, 1⟩, ⟨p4, f4, 1⟩, ⟨p5, f5, 1⟩, ⟨p6, f6, 1⟩, ⟨p7, f7, 1⟩, ⟨p8, f8, 1⟩, ⟨p9, f9, 1⟩, ⟨p10, f10, 1⟩, ⟨p11, f11, 1⟩, ⟨p12, f12, 1⟩, ⟨-1, -1, -1⟩, ⟨-1, -1, -1⟩, ⟨-1, -1, -1⟩]
      next_free_tlb_index := 13 } p13 f13 =
      { initState with
      tlb := [⟨p0, f0, 1⟩, ⟨p1, f1, 1⟩, ⟨p2, f2, 1⟩, ⟨p3, f3, 1⟩, ⟨p4, f4, 1⟩, ⟨p5, f5, 1⟩, ⟨p6, f6, 1⟩, ⟨p7, f7, 1⟩, ⟨p8, f8, 1⟩, ⟨p9, f9, 1⟩, ⟨p10, f10, 1⟩, ⟨p11, f11, 1⟩, ⟨p12, f12, 1⟩, ⟨p13, f13, 1⟩, ⟨-1, -1, -1⟩, ⟨-1, -1, -1⟩]
      next_free_tlb_index := 14 } := rfl
  have s14 : update_tlb { initState with
      tlb := [⟨p0, f0, 1⟩, ⟨p1, f1, 1⟩, ⟨p2, f2, 1⟩, ⟨p3, f3, 1⟩, ⟨p4, f4, 1⟩, ⟨p5, f5, 1⟩, ⟨p6, f6, 1⟩, ⟨p7, f7, 1⟩, ⟨p8, f8, 1⟩, ⟨p9, f9, 1⟩, ⟨p10, f10, 1⟩, ⟨p11, f11, 1⟩, ⟨p12, f12, 1⟩, ⟨p13, f13, 1⟩, ⟨-1, -1, -1⟩, ⟨-1, -1, -1⟩]
      next_free_tlb_index := 14 } p14 f14 =
      { initState with
      tlb := [⟨p0, f0, 1⟩, ⟨p1, f1, 1⟩, ⟨p2, f2, 1⟩, ⟨p3, f3, 1⟩, ⟨p4, f4, 1⟩, ⟨p5, f5, 1⟩, ⟨p6, f6, 1⟩, ⟨p7, f7, 1⟩, ⟨p8, f8, 1⟩, ⟨p9, f9, 1⟩, ⟨p10, f10, 1⟩, ⟨p11, f11, 1⟩, ⟨p12, f12, 1⟩, ⟨p13, f13, 1⟩, ⟨p14, f14, 1⟩, ⟨-1, -1, -1⟩]
      next_free_tlb_index := 15 } := rfl
  have s15 : update_tlb { initState with
      tlb := [⟨p0, f0, 1⟩, ⟨p1, f1, 1⟩, ⟨p2, f2, 1⟩, ⟨p3, f3, 1⟩, ⟨p4, f4, 1⟩, ⟨p5, f5, 1⟩, ⟨p6, f6, 1⟩, ⟨p7, f7, 1⟩, ⟨p8, f8, 1⟩, ⟨p9, f9, 1⟩, ⟨p10, f10, 1⟩, ⟨p11, f11, 1⟩, ⟨p12, f12, 1⟩, ⟨p13, f13, 1⟩, ⟨p14, f14, 1⟩, ⟨-1, -1, -1⟩]
      next_free_tlb_index := 15 } p15 f15 =
      { initState with
      tlb := [⟨p0, f0, 1⟩, ⟨p1, f1, 1⟩, ⟨p2, f2, 1⟩, ⟨p3, f3, 1⟩, ⟨p4, f4, 1⟩, ⟨p5, f5, 1⟩, ⟨p6, f6, 1⟩, ⟨p7, f7, 1⟩, ⟨p8, f8, 1⟩, ⟨p9, f9, 1⟩, ⟨p10, f10, 1⟩, ⟨p11, f11, 1⟩, ⟨p12, f12, 1⟩, ⟨p13, f13, 1⟩, ⟨p14, f14, 1⟩, ⟨p15, f15, 1⟩]
      next_free_tlb_index := 0 } := by
    rw [update_tlb, show (15 + 1) % TLB_SIZE = 0 from by decide]
    rfl
  have s16 : update_tlb { initState with
      tlb := [⟨p0, f0, 1⟩, ⟨p1, f1, 1⟩, ⟨p2, f2, 1⟩, ⟨p3, f3, 1⟩, ⟨p4, f4, 1⟩, ⟨p5, f5, 1⟩, ⟨p6, f6, 1⟩, ⟨p7, f7, 1⟩, ⟨p8, f8, 1⟩, ⟨p9, f9, 1⟩, ⟨p10, f10, 1⟩, ⟨p11, f11, 1⟩, ⟨p12, f12, 1⟩, ⟨p13, f13, 1⟩, ⟨p14, f14, 1⟩, ⟨p15, f15, 1⟩]
      next_free_tlb_index := 0 } p16 f16 =
      { initState with
      tlb := [⟨p16, f16, 1⟩, ⟨p1, f1, 1⟩, ⟨p2, f2, 1⟩, ⟨p3, f3, 1⟩, ⟨p4, f4, 1⟩, ⟨p5, f5, 1⟩, ⟨p6, f6, 1⟩, ⟨p7, f7, 1⟩, ⟨p8, f8, 1⟩, ⟨p9, f9, 1⟩, ⟨p10, f10, 1⟩, ⟨p11, f11, 1⟩, ⟨p12, f12, 1⟩, ⟨p13, f13, 1⟩, ⟨p14, f14, 1⟩, ⟨p15, f15, 1⟩]
      next_free_tlb_index := 1 } := rfl
  have hfill16 : tlb_fill [(p0, f0), (p1, f1), (p2, f2), (p3, f3), (p4, f4), (p5, f5), (p6, f6), (p7, f7), (p8, f8), (p9, f9), (p10, f10), (p11, f11), (p12, f12), (p13, f13), (p14, f14), (p15, f15)] =
      { initState with
      tlb := [⟨p0, f0, 1⟩, ⟨p1, f1, 1⟩, ⟨p2, f2, 1⟩, ⟨p3, f3, 1⟩, ⟨p4, f4, 1⟩, ⟨p5, f5, 1⟩, ⟨p6, f6, 1⟩, ⟨p7, f7, 1⟩, ⟨p8, f8, 1⟩, ⟨p9, f9, 1⟩, ⟨p10, f10, 1⟩, ⟨p11, f11, 1⟩, ⟨p12, f12, 1⟩, ⟨p13, f13, 1⟩, ⟨p14, f14, 1⟩, ⟨p15, f15, 1⟩]
      next_free_tlb_index := 0 } := by
    rw [tlb_fill]
    simp only [List.foldl_cons, List.foldl_nil]
    rw [s0, s1, s2, s3, s4, s5, s6, s7, s8, s9, s10, s11, s12, s13, s14, s15]
  have hfill17 : tlb_fill [(p0, f0), (p1, f1), (p2, f2), (p3, f3), (p4, f4), (p5, f5), (p6, f6), (p7, f7), (p8, f8), (p9, f9), (p10, f10), (p11, f11), (p12, f12), (p13, f13), (p14, f14), (p15, f15), (p16, f16)] =
      { initState with
      tlb := [⟨p16, f16, 1⟩, ⟨p1, f1, 1⟩, ⟨p2, f2, 1⟩, ⟨p3, f3, 1⟩, ⟨p4, f4, 1⟩, ⟨p5, f5, 1⟩, ⟨p6, f6, 1⟩, ⟨p7, f7, 1⟩, ⟨p8, f8, 1⟩, ⟨p9, f9, 1⟩, ⟨p10, f10, 1⟩, ⟨p11, f11, 1⟩, ⟨p12, f12, 1⟩, ⟨p13, f13, 1⟩, ⟨p14, f14, 1⟩, ⟨p15, f15, 1⟩]
      next_free_tlb_index := 1 } := by
    rw [tlb_fill]
    simp only [List.foldl_cons, List.foldl_nil]
    rw [s0, s1, s2, s3, s4, s5, s6, s7, s8, s9, s10, s11, s12, s13, s14, s15, s16]
  have h16 : (tlb_fill [(p0, f0), (p1, f1), (p2, f2), (p3, f3), (p4, f4), (p5, f5), (p6, f6), (p7, f7), (p8, f8), (p9, f9), (p10, f10), (p11, f11), (p12, f12), (p13, f13), (p14, f14), (p15, f15)]).tlb =
      [⟨p0, f0, 1⟩, ⟨p1, f1, 1⟩, ⟨p2, f2, 1⟩, ⟨p3, f3, 1⟩, ⟨p4, f4, 1⟩, ⟨p5, f5, 1⟩, ⟨p6, f6, 1⟩, ⟨p7, f7, 1⟩, ⟨p8, f8, 1⟩, ⟨p9, f9, 1⟩, ⟨p10, f10, 1⟩, ⟨p11, f11, 1⟩, ⟨p12, f12, 1⟩, ⟨p13, f13, 1⟩, ⟨p14, f14, 1⟩, ⟨p15, f15, 1⟩] := by rw [hfill16]
  have h17 : (tlb_fill [(p0, f0), (p1, f1), (p2, f2), (p3, f3), (p4, f4), (p5, f5), (p6, f6), (p7, f7), (p8, f8), (p9, f9), (p10, f10), (p11, f11), (p12, f12), (p13, f13), (p14, f14), (p15, f15), (p16, f16)]).tlb =
      [⟨p16, f16, 1⟩, ⟨p1, f1, 1⟩, ⟨p2, f2, 1⟩, ⟨p3, f3, 1⟩, ⟨p4, f4, 1⟩, ⟨p5, f5, 1⟩, ⟨p6, f6, 1⟩, ⟨p7, f7, 1⟩, ⟨p8, f8, 1⟩, ⟨p9, f9, 1⟩, ⟨p10, f10, 1⟩, ⟨p11, f11, 1⟩, ⟨p12, f12, 1⟩, ⟨p13, f13, 1⟩, ⟨p14, f14, 1⟩, ⟨p15, f15, 1⟩] := by rw [hfill17]
  refine ⟨?_, ?_, ?_, ?_, by rw [hfill17], ?_⟩
  · intro store addrs
    have hlen := (invcore_run store addrs).tlb_len
    have hle := List.countP_le_length (p := fun e => e.valid == 1)
      (l := (run_state store addrs).tlb)
    rw [hlen] at hle
    exact hle
  · rw [h16]
    rfl
  · have hf : find_first (fun e => e.page_number == p0 && e.valid == 1)
        (tlb_fill [(p0, f0), (p1, f1), (p2, f2), (p3, f3), (p4, f4),
          (p5, f5), (p6, f6), (p7, f7), (p8, f8), (p9, f9), (p10, f10),
          (p11, f11), (p12, f12), (p13, f13), (p14, f14), (p15, f15)]).tlb
        = some 0 := by
      rw [h16, find_first, if_pos (by simp)]
    rw [check_tlb, hf]
    dsimp only
    rw [h16]
    rfl
  · rw [h17]
    rfl
  · have hmiss : ∀ e ∈ (tlb_fill [(p0, f0), (p1, f1), (p2, f2), (p3, f3),
        (p4, f4), (p5, f5), (p6, f6), (p7, f7), (p8, f8), (p9, f9),
        (p10, f10), (p11, f11), (p12, f12), (p13, f13), (p14, f14),
        (p15, f15), (p16, f16)]).tlb,
        ¬(e.valid = 1 ∧ e.page_number = p0) := by
      rw [h17]
      intro e he hc
      obtain ⟨hv, hpq⟩ := hc
      simp only [List.mem_cons, List.not_mem_nil, or_false] at he
      rcases he with rfl | rfl | rfl | rfl | rfl | rfl | rfl | rfl | rfl |
        rfl | rfl | rfl | rfl | rfl | rfl | rfl <;> simp_all
    rw [check_tlb_miss _ _ hmiss]

theorem c3_witness :
    (check_tlb (tlb_fill
      [((0 : Int), (20 : Int)), (1, 21), (2, 22), (3, 23), (4, 24), (5, 25),
       (6, 26), (7, 27), (8, 28), (9, 29), (10, 30), (11, 31), (12, 32),
       (13, 33), (14, 34), (15, 35), (16, 36)]) 0).1 = -1 :=
  (c3_fifo_eviction 0 1 2 3 4 5 6 7 8 9 10 11 12 13 14 15 16
    20 21 22 23 24 25 26 27 28 29 30 31 32 33 34 35 36
    (by decide)).2.2.2.2.2


theorem step_load_binds (store : BackingStore) (s : VmmState) (a p : Nat)
    (hinv : InvCore s) (hl : (translate_step store s a).1.load = some p) :
    (translate_step store s a).2.page_table.getD p (-1) ≠ -1 := by
  rw [translate_step_load] at hl
  by_cases hc : (check_tlb s ((get_page_number a : Nat) : Int)).1 = -1 ∧
      s.page_table.getD (get_page_number a) (-1) = -1 ∧
      fread_count store (get_page_number a * 256) ≠ 0
  · rw [if_pos hc] at hl
    obtain rfl : get_page_number a = p := Option.some.inj hl
    obtain ⟨hm, hb, hr⟩ := hc
    rw [translate_step_snd, if_pos hm]
    rw [check_tlb_neg_one s _ hinv hm]
    dsimp only
    obtain ⟨i, hi256, hfree1, hfi, hcc, heq⟩ :=
      cpt_unbound_success store s _ hinv (get_page_number_lt a) hb hr
    rw [heq]
    dsimp only
    rw [getD_set_self s.page_table (get_page_number a) ((i : Int)) (-1)
      (by rw [hinv.pt_len]; exact get_page_number_lt a)]
    omega
  · rw [if_neg hc] at hl
    cases hl

theorem run_loads_bound (store : BackingStore) (xs : List Nat) (p : Nat)
    (h : p ∈ run_loads store xs) :
    (run_state store xs).page_table.getD p (-1) ≠ -1 := by
  induction xs using List.reverseRecOn with
  | nil =>
      rw [show run_loads store [] = [] from rfl] at h
      cases h
  | append_singleton xs a ih =>
      rw [run_loads_snoc] at h
      rw [run_state_snoc]
      rcases List.mem_append.mp h with h1 | h2
      · exact step_bound_persist store _ a p (ih h1)
      · have hl : (translate_step store (run_state store xs) a).1.load
            = some p := by
          cases hld : (translate_step store (run_state store xs) a).1.load with
          | none => rw [hld] at h2; cases h2
          | some q =>
              rw [hld] at h2
              have hpq : p = q := by simpa [Option.toList] using h2
              rw [hpq]
        exact step_load_binds store _ a p (invcore_run store xs) hl

theorem run_loads_nodup (store : BackingStore) (xs : List Nat) :
    (run_loads store xs).Nodup := by
  induction xs using List.reverseRecOn with
  | nil =>
      rw [show run_loads store [] = [] from rfl]
      exact List.nodup_nil
  | append_singleton xs a ih =>
      rw [run_loads_snoc]
      cases hld : (translate_step store (run_state store xs) a).1.load with
      | none => simpa [Option.toList] using ih
      | some q =>
          have hq : q ∉ run_loads store xs := by
            intro hmem
            have hbound := run_loads_bound store xs q hmem
            rw [translate_step_load] at hld
            by_cases hc : (check_tlb (run_state store xs)
                  ((get_page_number a : Nat) : Int)).1 = -1 ∧
                (run_state store xs).page_table.getD
                  (get_page_number a) (-1) = -1 ∧
                fread_count store (get_page_number a * 256) ≠ 0
            · have hqa : get_page_number a = q := by
                rw [if_pos hc] at hld
                exact Option.some.inj hld
              rw [← hqa] at hbound
              exact hbound hc.2.1
            · rw [if_neg hc] at hld
              cases hld
          rw [show (some q).toList = [q] from rfl]
          rw [List.nodup_append]
          refine ⟨ih, List.nodup_singleton q, ?_⟩
          intro x hx hx2
          rw [show x ∈ [q] ↔ x = q by simp] at hx2
          rw [hx2] at hx
          exact hq hx

/-- C6: over every run, page numbers and offsets of every request lie in
[0,255]; every bound page-table entry and every valid TLB entry holds a
frame number in [0,255] (and a page number in [0,255] for TLB entries); a
page is loaded from the backing store at most once per run; a frame is bound
to at most one page for the whole run; and the TLB holds at most 16 valid
entries. -/
theorem c6_invariants (store : BackingStore) (addrs : List Nat) :
    (∀ a ∈ addrs, get_page_number a < 256 ∧ get_offset a < 256) ∧
    (∀ q, q < 256 →
      (run_state store addrs).page_table.getD q (-1) = -1 ∨
      (0 ≤ (run_state store addrs).page_table.getD q (-1) ∧
        (run_state store addrs).page_table.getD q (-1) < 256)) ∧
    (∀ e ∈ (run_state store addrs).tlb, e.valid = 1 →
      0 ≤ e.page_number ∧ e.page_number < 256 ∧
      0 ≤ e.frame_number ∧ e.frame_number < 256) ∧
    (run_loads store addrs).Nodup ∧
    (∀ q1 q2, q1 < 256 → q2 < 256 →
      (run_state store addrs).page_table.getD q1 (-1) ≠ -1 →
      (run_state store addrs).page_table.getD q1 (-1) =
        (run_state store addrs).page_table.getD q2 (-1) → q1 = q2) ∧
    (run_state store addrs).tlb.countP (fun e => e.valid == 1) ≤ 16 := by
  have hinv := invcore_run store addrs
  refine ⟨fun a _ => ⟨get_page_number_lt a, get_offset_lt a⟩, ?_, ?_,
    run_loads_nodup store addrs, hinv.pt_inj, ?_⟩
  · intro q hq
    exact hinv.pt_range _
      (getD_mem (run_state store addrs).page_table q (-1)
        (by rw [hinv.pt_len]; exact hq))
  · exact hinv.tlb_range
  · have hle := List.countP_le_length (p := fun e => e.valid == 1)
      (l := (run_state store addrs).tlb)
    rw [hinv.tlb_len] at hle
    exact hle

theorem c6_witness :
    (run_loads ⟨fun _ => 0, 65536⟩ [0]).Nodup ∧
    get_page_number 0 < 256 ∧ get_offset 0 < 256 :=
  ⟨(c6_invariants ⟨fun _ => 0, 65536⟩ [0]).2.2.2.1,
   ((c6_invariants ⟨fun _ => 0, 65536⟩ [0]).1 0 (by decide)).1,
   ((c6_invariants ⟨fun _ => 0, 65536⟩ [0]).1 0 (by decide)).2⟩

end Vmm
